import Mathlib

/-!
Verification of the oastrix OAST collector against its natural-language
specification.  Go strings are modelled as `List Char`; Go byte slices as
`List Nat`; machine integers as `Int`/`Nat` (no overflow is reachable in the
modelled code paths); fallible Go calls as `Option`/`Except`.  Each definition
is a direct translation of the named Go function.
-/

namespace Oastrix

/-! ## Go string primitives (strings package) -/

/-- Model of Go `strings.HasSuffix`. -/
def goHasSuffix (s suffix : List Char) : Bool :=
  decide (suffix.length ≤ s.length) && s.drop (s.length - suffix.length) == suffix

/-- Model of Go `strings.TrimSuffix`: removes one trailing occurrence of
`suffix` when present. -/
def goTrimSuffix (s suffix : List Char) : List Char :=
  if goHasSuffix s suffix then s.take (s.length - suffix.length) else s

/-- Model of Go `strings.HasPrefix`. -/
def goStartsWith (s pre : List Char) : Bool :=
  decide (pre.length ≤ s.length) && s.take pre.length == pre

/-- Model of Go `strings.TrimPrefix`: removes one leading occurrence of
`pre` when present. -/
def goTrimPfx (s pre : List Char) : List Char :=
  if goStartsWith s pre then s.drop pre.length else s

/-- Model of Go `unicode.ToLower` restricted to the ASCII range, which is the
only range the DNS and API-key code paths meet (case mapping outside ASCII is
not exercised by any modelled input). -/
def goToLowerChar (c : Char) : Char :=
  if 'A' ≤ c && c ≤ 'Z' then Char.ofNat (c.toNat + 32) else c

/-- Model of Go `strings.ToLower` (ASCII range). -/
def goToLower (s : List Char) : List Char := s.map goToLowerChar

/-! ## acme.NormalizeName (internal/acme/txtstore.go) -/

/-- Translation of `acme.NormalizeName`: lowercase, then strip one trailing
dot. -/
def NormalizeName (name : List Char) : List Char :=
  goTrimSuffix (goToLower name) ['.']


/-! ## More Go string primitives -/

/-- Splits at the first occurrence of `sep`; `none` when `sep` is absent.
Used to model `strings.SplitN(s, sep, 2)` (which yields one part when `sep`
is absent) and `strings.Index`. -/
def goSplitOnce : List Char → Char → Option (List Char × List Char)
  | [], _ => none
  | c :: rest, sep =>
    if c = sep then some ([], rest)
    else
      match goSplitOnce rest sep with
      | some (a, b) => some (c :: a, b)
      | none => none

/-- Model of `strings.SplitN(s, sep, 2)`. -/
def goSplitN2 (s : List Char) (sep : Char) : List (List Char) :=
  match goSplitOnce s sep with
  | some (a, b) => [a, b]
  | none => [s]

/-- Splits at the last occurrence of `sep` (`strings.LastIndex`). -/
def goSplitLast (s : List Char) (sep : Char) : Option (List Char × List Char) :=
  match goSplitOnce s.reverse sep with
  | some (a, b) => some (b.reverse, a.reverse)
  | none => none

/-- Model of `strings.Split(s, sep)` for a one-character separator
(accumulator form; `strings.Split` always returns at least one part). -/
def goSplitAllAux : List Char → Char → List Char → List (List Char)
  | [], _, acc => [acc.reverse]
  | c :: rest, sep, acc =>
    if c = sep then acc.reverse :: goSplitAllAux rest sep []
    else goSplitAllAux rest sep (c :: acc)

/-- Model of `strings.Split(s, sep)` for a one-character separator. -/
def goSplitAll (s : List Char) (sep : Char) : List (List Char) :=
  goSplitAllAux s sep []

/-- Model of `strings.Trim(s, cutset)`: removes leading and trailing
characters belonging to `cutset`. -/
def goTrimChars (s cutset : List Char) : List Char :=
  ((s.dropWhile (cutset.contains ·)).reverse.dropWhile (cutset.contains ·)).reverse

/-- ASCII bytes of a string (Go `[]byte(s)` for ASCII content). -/
def asciiBytes (s : List Char) : List Nat := s.map Char.toNat

/-! ## internal/auth (auth.go): API-key format -/

/-- Translation of the constant `servicePrefix = "oastrix"`. -/
def servicePfx : List Char := "oastrix".toList

/-- Translation of the constant `prefixLength = 12`. -/
def prefixLength : Nat := 12

/-- Translation of `auth.isAlphanumeric`. -/
def isAlphanumeric (c : Char) : Bool :=
  ('a' ≤ c && c ≤ 'z') || ('0' ≤ c && c ≤ '9')

/-- Translation of `auth.ParseAPIKey`: strip the `oastrix_` service marker,
split the remainder at the first underscore into key-prefix and secret, and
validate the key-prefix (length 12, lowercase alphanumeric). -/
def ParseAPIKey (displayKey : List Char) : Except Unit (List Char × List Char) :=
  if goStartsWith displayKey (servicePfx ++ ['_']) then
    let rest := goTrimPfx displayKey (servicePfx ++ ['_'])
    match goSplitOnce rest '_' with
    | some (p, secretPart) =>
      if p.length = prefixLength then
        if p.all isAlphanumeric then .ok (p, secretPart) else .error ()
      else .error ()
    | none => .error ()
  else .error ()

/-- Display form assembled by `auth.GenerateAPIKey`:
`servicePrefix + "_" + prefix + "_" + secret`. -/
def apiKeyDisplay (keyPfx secret : List Char) : List Char :=
  servicePfx ++ '_' :: (keyPfx ++ '_' :: secret)

/-! ## internal/server/http.go (pipeline version): ExtractToken -/

/-- Model of `net.SplitHostPort`: strip a trailing `:port`; fails (as the Go
function does) when no colon is present; a bracketed IPv6 literal loses its
brackets. Only the error path (host without a colon) is exercised by the
claims. -/
def goSplitHostPort (hp : List Char) : Option (List Char) :=
  match goSplitLast hp ':' with
  | none => none
  | some (h, _) =>
    if goStartsWith h ['['] && goHasSuffix h [']'] then some ((h.drop 1).dropLast)
    else if h.contains ':' then none
    else some h

/-- Path half of `server.ExtractToken`: a `/oast/<tok>[/...]` path yields
`<tok>`. -/
def extractTokenFromPath (path : List Char) : List Char :=
  if goStartsWith path ("/oast/".toList) then
    let remaining := goTrimPfx path ("/oast/".toList)
    let remaining :=
      match goSplitOnce remaining '/' with
      | some (a, _) => a
      | none => remaining
    if remaining ≠ [] then remaining else []
  else []

/-- Translation of `server.ExtractToken` (internal/server/http.go, pipeline
version): strip `:port` and surrounding brackets from the request host; if the
host ends in `.<domain>`, keep the part after the last remaining dot of the
subdomain; otherwise fall back to the `/oast/<tok>` path form. -/
def ExtractToken (host0 path domain : List Char) : List Char :=
  let host1 := match goSplitHostPort host0 with
    | some h => h
    | none => host0
  let host := goTrimChars host1 ['[', ']']
  if goHasSuffix host ('.' :: domain) then
    let subdomain := goTrimSuffix host ('.' :: domain)
    let subdomain := match goSplitLast subdomain '.' with
      | some (_, afterDot) => afterDot
      | none => subdomain
    if subdomain ≠ [] then subdomain else extractTokenFromPath path
  else extractTokenFromPath path

/-! ## internal/server (dns.go): extractTokenFromQName -/

/-- Translation of `server.extractTokenFromQName`: the leftmost label of a
name strictly below `domain`, otherwise empty. -/
def extractTokenFromQName (qname domain0 : List Char) : List Char :=
  let domain := goToLower domain0
  if ¬ goHasSuffix qname ('.' :: domain) ∧ qname ≠ domain then []
  else if qname = domain then []
  else
    let subdomain := goTrimSuffix qname ('.' :: domain)
    match goSplitAll subdomain '.' with
    | [] => []
    | p :: _ => p

/-! ## internal/db (db.go): migrations -/

/-- Digit run of `strconv.Atoi`: the value of a nonempty all-digit string. -/
def goAtoiDigits (s : List Char) : Option Nat :=
  if s ≠ [] ∧ s.all Char.isDigit then
    some (s.foldl (fun acc c => acc * 10 + (c.toNat - 48)) 0)
  else none

/-- Model of `strconv.Atoi` (overflow is unreachable for migration version
numbers in use): optional sign followed by a nonempty digit run. -/
def goAtoi (s : List Char) : Option Int :=
  match s with
  | [] => none
  | '+' :: rest => (goAtoiDigits rest).map Int.ofNat
  | '-' :: rest => (goAtoiDigits rest).map (fun n => -(n : Int))
  | _ => (goAtoiDigits s).map Int.ofNat

/-- Translation of `db.parseVersion`: integer value of the filename segment
before the first underscore; `none` is the fatal
"invalid migration filename" / Atoi error. -/
def parseVersion (filename : List Char) : Option Int :=
  match goSplitN2 filename '_' with
  | [] => none
  | p :: _ => goAtoi p

/-- Model of Go `sort.Strings` (lexicographic byte order; for `List Char`
the codepoint order used here agrees with Go's UTF-8 byte order). -/
def sortStrings (l : List (List Char)) : List (List Char) :=
  l.insertionSort (· ≤ ·)

/-- Migration discovery in `db.applyMigrations`: keep `.sql` entries, sort
with `sort.Strings`. -/
def discoverMigrations (entries : List (List Char)) : List (List Char) :=
  sortStrings (entries.filter (fun e => goHasSuffix e (".sql".toList)))

/-- Main loop of `db.applyMigrations` over the sorted filenames: parse each
version (a parse failure is fatal), skip versions already recorded in
`schema_migrations`, execute and record the rest in order. Returns the
executed `(filename, version)` list. -/
def runMigrations : List (List Char) → List Int → Except Unit (List (List Char × Int))
  | [], _ => .ok []
  | name :: rest, applied =>
    match parseVersion name with
    | none => .error ()
    | some v =>
      if applied.contains v then runMigrations rest applied
      else
        match runMigrations rest (v :: applied) with
        | .ok execs => .ok ((name, v) :: execs)
        | .error e => .error e

/-- Translation of `db.applyMigrations` (discovery + sort + loop), as a
function of the discovered directory entries and the already-applied version
set. -/
def applyMigrations (entries : List (List Char)) (applied : List Int) :
    Except Unit (List (List Char × Int)) :=
  runMigrations (discoverMigrations entries) applied

/-! ## internal/models + db state -/

/-- Row of the `tokens` table (`models.Token`). -/
structure Token where
  id : Int
  token : List Char
  apiKeyId : Option Int
  createdAt : Int
  label : Option (List Char)
  deriving DecidableEq, Repr

/-- Row of the `interactions` table (`models.Interaction`). -/
structure Interaction where
  id : Int
  tokenId : Int
  kind : List Char
  occurredAt : Int
  remoteIp : List Char
  remotePort : Int
  tls : Bool
  summary : List Char
  deriving DecidableEq, Repr

/-- Row of the `http_interactions` table (`models.HTTPInteraction`); the
request-headers JSON round-trip is modelled as the decoded map itself. -/
structure HTTPInteraction where
  interactionId : Int
  method : List Char
  scheme : List Char
  host : List Char
  path : List Char
  query : List Char
  httpVersion : List Char
  requestHeaders : List (List Char × List (List Char))
  requestBody : List Nat
  deriving DecidableEq, Repr

/-- Row of the `dns_interactions` table (`models.DNSInteraction`). -/
structure DNSInteraction where
  interactionId : Int
  qname : List Char
  qtype : Nat
  qclass : Nat
  rd : Nat
  opcode : Nat
  dnsId : Nat
  protocol : List Char
  deriving DecidableEq, Repr

/-- Row of the `interaction_attributes` table (value JSON-encoded). -/
structure AttrRow where
  interactionId : Int
  key : List Char
  value : List Char
  deriving DecidableEq, Repr

/-- Pure model of the SQLite database: the tables touched by the modelled
code, plus the AUTOINCREMENT counter for `interactions.id`. -/
structure DBState where
  tokens : List Token
  interactions : List Interaction
  httpRows : List HTTPInteraction
  dnsRows : List DNSInteraction
  attrRows : List AttrRow
  nextId : Int
  deriving DecidableEq, Repr

/-- Translation of `db.GetTokenByValue` (`SELECT ... WHERE token = ?`). -/
def GetTokenByValue (db : DBState) (value : List Char) : Option Token :=
  db.tokens.find? (fun t => t.token == value)

/-- Translation of `db.DeleteToken` (`DELETE FROM tokens WHERE token = ?`);
the FK `ON DELETE CASCADE` chain is not needed by the modelled claims and the
dependent tables are left as they are. -/
def DeleteToken (db : DBState) (value : List Char) : DBState :=
  { db with tokens := db.tokens.filter (fun t => ¬ t.token == value) }

/-- Translation of `db.CreateInteraction`: insert the base row, return the
AUTOINCREMENT id. -/
def CreateInteraction (db : DBState) (tokenId : Int) (kind remoteIp : List Char)
    (remotePort : Int) (tls : Bool) (summary : List Char) (occurredAt : Int) :
    Int × DBState :=
  let id := db.nextId
  (id, { db with
           nextId := id + 1,
           interactions := db.interactions ++
             [{ id := id, tokenId := tokenId, kind := kind, occurredAt := occurredAt,
                remoteIp := remoteIp, remotePort := remotePort, tls := tls,
                summary := summary }] })

/-- Translation of `db.CreateHTTPInteraction`. -/
def CreateHTTPInteraction (db : DBState) (interactionId : Int)
    (method scheme host path query httpVersion : List Char)
    (headers : List (List Char × List (List Char))) (body : List Nat) : DBState :=
  { db with httpRows := db.httpRows ++
      [{ interactionId := interactionId, method := method, scheme := scheme,
         host := host, path := path, query := query, httpVersion := httpVersion,
         requestHeaders := headers, requestBody := body }] }

/-- Translation of `db.CreateDNSInteraction`. -/
def CreateDNSInteraction (db : DBState) (interactionId : Int) (qname : List Char)
    (qtype qclass rd opcode dnsId : Nat) (protocol : List Char) : DBState :=
  { db with dnsRows := db.dnsRows ++
      [{ interactionId := interactionId, qname := qname, qtype := qtype,
         qclass := qclass, rd := rd, opcode := opcode, dnsId := dnsId,
         protocol := protocol }] }

/-! ## internal/events (types.go): drafts and response plans -/

/-- Constant `events.KindHTTP`. -/
def KindHTTP : List Char := "http".toList

/-- Constant `events.KindDNS`. -/
def KindDNS : List Char := "dns".toList

/-- Value stored in a draft's attribute bag (Go `any`), abstracted by its
`json.Marshal` behaviour: either a value with a JSON encoding, or one (a
channel, a function, ...) on which `json.Marshal` errors. -/
inductive AttrVal where
  | encodable (json : List Char)
  | unencodable
  deriving DecidableEq, Repr

/-- Model of `json.Marshal` on an attribute value. -/
def marshalAttr : AttrVal → Option (List Char)
  | .encodable j => some j
  | .unencodable => none

/-- Translation of `events.HTTPDraft`. -/
structure HTTPDraft where
  method : List Char
  scheme : List Char
  host : List Char
  path : List Char
  query : List Char
  proto : List Char
  headers : List (List Char × List (List Char))
  body : List Nat
  deriving DecidableEq, Repr

/-- Translation of `events.DNSDraft`. -/
structure DNSDraft where
  qname : List Char
  qtype : Nat
  qclass : Nat
  rd : Nat
  opcode : Nat
  dnsId : Nat
  protocol : List Char
  deriving DecidableEq, Repr

/-- Translation of `events.InteractionDraft` (the attribute map as an
association list). -/
structure InteractionDraft where
  tokenValue : List Char
  tokenId : Int
  kind : List Char
  occurredAt : Int
  remoteIp : List Char
  remotePort : Int
  tls : Bool
  summary : List Char
  http : Option HTTPDraft
  dns : Option DNSDraft
  attributes : List (List Char × AttrVal)
  drop : Bool
  deriving DecidableEq, Repr

/-- Translation of `events.HTTPResponsePlan`. -/
structure HTTPResponsePlan where
  status : Nat
  headers : List (List Char × List Char)
  body : List Nat
  handled : Bool
  deriving DecidableEq, Repr

/-- Resource-record model: the fields of the `dns.RR` values the handler
builds. -/
inductive RRData where
  | soa (mname rname : List Char) (serial refresh retryIv expire minttl : Nat)
  | ns (nsName : List Char)
  | a (ip : List Char)
  | txt (value : List Char)
  deriving DecidableEq, Repr

/-- Resource-record header + data. -/
structure RRModel where
  name : List Char
  rrtype : Nat
  ttl : Nat
  rdata : RRData
  deriving DecidableEq, Repr

/-- Translation of `events.DNSResponsePlan`. -/
structure DNSResponsePlan where
  rcode : Nat
  answers : List RRModel
  handled : Bool
  deriving DecidableEq, Repr

/-! ## internal/plugins (pipeline.go)

The pipeline is generic in a state `σ` threaded through every hook and the
store (in Go, hooks close over the shared database handle).  A hook returns
its new state, its result, and whether it returned a non-nil error; per
pipeline.go such errors are logged and swallowed. -/

/-- Execution phases, for tracing which hook ran when. -/
inductive Phase where
  | preStoreP
  | postStoreP
  | responseP
  deriving DecidableEq, Repr

/-- A registered `OnPreStore` hook: may mutate the draft (pipeline.go:80). -/
structure PreStoreHook (σ : Type) where
  run : σ → InteractionDraft → σ × InteractionDraft × Bool

/-- A registered `OnPostStore` hook: side effects only (pipeline.go:102);
it sees the event (draft and assigned interaction id). -/
structure PostStoreHook (σ : Type) where
  run : σ → InteractionDraft → Int → σ × Bool

/-- A registered `OnHTTPResponse` hook (pipeline.go:110). -/
structure HTTPRespHook (σ : Type) where
  run : σ → InteractionDraft → HTTPResponsePlan → σ × HTTPResponsePlan × Bool

/-- A registered `OnDNSResponse` hook (pipeline.go:156). -/
structure DNSRespHook (σ : Type) where
  run : σ → InteractionDraft → DNSResponsePlan → σ × DNSResponsePlan × Bool

/-- The pipeline's `Store` interface: `CreateInteraction` may fail (that error
aborts the run), `SaveAttributes` errors are logged and swallowed
(pipeline.go:95). -/
structure Store (σ : Type) where
  createInteraction : σ → InteractionDraft → σ × Except Unit Int
  saveAttributes : σ → Int → List (List Char × AttrVal) → σ × Bool

/-- Translation of `plugins.Pipeline`: the hook lists in registration order
plus the optional store. -/
structure Pipeline (σ : Type) where
  store : Option (Store σ)
  preStore : List (PreStoreHook σ)
  postStore : List (PostStoreHook σ)
  httpResponse : List (HTTPRespHook σ)
  dnsResponse : List (DNSRespHook σ)

/-- The pre-store loop of `ProcessHTTP`/`ProcessDNS`: every hook runs, errors
are logged and swallowed, the draft threads through.  Emits one trace entry
per hook, numbered from `i`. -/
def runPreHooks {σ : Type} :
    List (PreStoreHook σ) → Nat → σ → InteractionDraft →
    σ × InteractionDraft × List (Nat × Phase)
  | [], _, s, d => (s, d, [])
  | h :: rest, i, s, d =>
    let r1 := h.run s d
    let r2 := runPreHooks rest (i + 1) r1.1 r1.2.1
    (r2.1, r2.2.1, (i, Phase.preStoreP) :: r2.2.2)

/-- The post-store loop: every hook runs, errors are logged and swallowed. -/
def runPostHooks {σ : Type} :
    List (PostStoreHook σ) → Nat → σ → InteractionDraft → Int →
    σ × List (Nat × Phase)
  | [], _, s, _, _ => (s, [])
  | h :: rest, i, s, d, interactionId =>
    let r1 := h.run s d interactionId
    let r2 := runPostHooks rest (i + 1) r1.1 d interactionId
    (r2.1, (i, Phase.postStoreP) :: r2.2)

/-- The HTTP response-synthesis loop: after each hook the loop stops if the
plan is marked handled; hook errors are logged and swallowed. -/
def runHTTPRespHooks {σ : Type} :
    List (HTTPRespHook σ) → Nat → σ → InteractionDraft → HTTPResponsePlan →
    σ × HTTPResponsePlan × List (Nat × Phase)
  | [], _, s, _, p => (s, p, [])
  | h :: rest, i, s, d, p =>
    let r1 := h.run s d p
    if r1.2.1.handled then (r1.1, r1.2.1, [(i, Phase.responseP)])
    else
      let r2 := runHTTPRespHooks rest (i + 1) r1.1 d r1.2.1
      (r2.1, r2.2.1, (i, Phase.responseP) :: r2.2.2)

/-- The DNS response-synthesis loop, same shape as the HTTP one. -/
def runDNSRespHooks {σ : Type} :
    List (DNSRespHook σ) → Nat → σ → InteractionDraft → DNSResponsePlan →
    σ × DNSResponsePlan × List (Nat × Phase)
  | [], _, s, _, p => (s, p, [])
  | h :: rest, i, s, d, p =>
    let r1 := h.run s d p
    if r1.2.1.handled then (r1.1, r1.2.1, [(i, Phase.responseP)])
    else
      let r2 := runDNSRespHooks rest (i + 1) r1.1 d r1.2.1
      (r2.1, r2.2.1, (i, Phase.responseP) :: r2.2.2)

/-- Outcome of one pipeline run: final state, final draft, the id the event's
`InteractionID` was set to, the final response plan, whether the run returned
an error, and the hook trace. -/
structure RunResult (σ π : Type) where
  state : σ
  draft : InteractionDraft
  interactionId : Int
  resp : π
  failed : Bool
  trace : List (Nat × Phase)

/-- The storage step shared by `ProcessHTTP` and `ProcessDNS`
(pipeline.go:87-99 / 133-145): skipped when the draft was dropped or no store
is set; a `CreateInteraction` error aborts; a `SaveAttributes` error (only
attempted for a nonempty attribute bag) is logged and swallowed.  Returns
(state, assigned id, aborted). -/
def storeStep {σ : Type} (store : Option (Store σ)) (s : σ) (d : InteractionDraft) :
    σ × Int × Bool :=
  if d.drop = false then
    match store with
    | some st =>
      match st.createInteraction s d with
      | (s2, .error _) => (s2, 0, true)
      | (s2, .ok id) =>
        if d.attributes.length > 0 then
          let r := st.saveAttributes s2 id d.attributes
          (r.1, id, false)
        else (s2, id, false)
    | none => (s, 0, false)
  else (s, 0, false)

/-- Translation of `Pipeline.ProcessHTTP`: pre-store hooks, storage step
(an error there returns immediately), post-store hooks, response chain. -/
def ProcessHTTP {σ : Type} (p : Pipeline σ) (s : σ) (d : InteractionDraft)
    (resp : HTTPResponsePlan) : RunResult σ HTTPResponsePlan :=
  let pre := runPreHooks p.preStore 0 s d
  let st := storeStep p.store pre.1 pre.2.1
  if st.2.2 then
    { state := st.1, draft := pre.2.1, interactionId := 0, resp := resp,
      failed := true, trace := pre.2.2 }
  else
    let post := runPostHooks p.postStore 0 st.1 pre.2.1 st.2.1
    let rr := runHTTPRespHooks p.httpResponse 0 post.1 pre.2.1 resp
    { state := rr.1, draft := pre.2.1, interactionId := st.2.1, resp := rr.2.1,
      failed := false, trace := pre.2.2 ++ post.2 ++ rr.2.2 }

/-- Translation of `Pipeline.ProcessDNS`, same shape as `ProcessHTTP`. -/
def ProcessDNS {σ : Type} (p : Pipeline σ) (s : σ) (d : InteractionDraft)
    (resp : DNSResponsePlan) : RunResult σ DNSResponsePlan :=
  let pre := runPreHooks p.preStore 0 s d
  let st := storeStep p.store pre.1 pre.2.1
  if st.2.2 then
    { state := st.1, draft := pre.2.1, interactionId := 0, resp := resp,
      failed := true, trace := pre.2.2 }
  else
    let post := runPostHooks p.postStore 0 st.1 pre.2.1 st.2.1
    let rr := runDNSRespHooks p.dnsResponse 0 post.1 pre.2.1 resp
    { state := rr.1, draft := pre.2.1, interactionId := st.2.1, resp := rr.2.1,
      failed := false, trace := pre.2.2 ++ post.2 ++ rr.2.2 }

/-- Modelled from the spec's response-chain rule ("if any hook sets
`handled=true`, later hooks in the chain are skipped"): how many
response-synthesis hooks run, namely the hooks up to and including the first
after whose call the plan is handled. -/
def specRespCountDNS {σ : Type} :
    List (DNSRespHook σ) → σ → InteractionDraft → DNSResponsePlan → Nat
  | [], _, _, _ => 0
  | h :: rest, s, d, p =>
    let r1 := h.run s d p
    if r1.2.1.handled then 1 else 1 + specRespCountDNS rest r1.1 d r1.2.1

/-- Spec-side count of HTTP response hooks that run (same rule). -/
def specRespCountHTTP {σ : Type} :
    List (HTTPRespHook σ) → σ → InteractionDraft → HTTPResponsePlan → Nat
  | [], _, _, _ => 0
  | h :: rest, s, d, p =>
    let r1 := h.run s d p
    if r1.2.1.handled then 1 else 1 + specRespCountHTTP rest r1.1 d r1.2.1

/-- State after the pre-store loop of a run starting at `(s, d)`. -/
def preState {σ : Type} (p : Pipeline σ) (s : σ) (d : InteractionDraft) : σ :=
  (runPreHooks p.preStore 0 s d).1

/-- Draft after the pre-store loop. -/
def preDraft {σ : Type} (p : Pipeline σ) (s : σ) (d : InteractionDraft) :
    InteractionDraft :=
  (runPreHooks p.preStore 0 s d).2.1

/-- Whether the storage step aborts the run. -/
def abortFlag {σ : Type} (p : Pipeline σ) (s : σ) (d : InteractionDraft) : Bool :=
  (storeStep p.store (preState p s d) (preDraft p s d)).2.2

/-- State entering the response chain (after the post-store loop). -/
def postState {σ : Type} (p : Pipeline σ) (s : σ) (d : InteractionDraft) : σ :=
  (runPostHooks p.postStore 0
    (storeStep p.store (preState p s d) (preDraft p s d)).1
    (preDraft p s d)
    (storeStep p.store (preState p s d) (preDraft p s d)).2.1).1

/-! ## internal/db (attributes.go): SaveAttributes -/

/-- One `stmt.Exec` of the UPSERT
`INSERT ... ON CONFLICT (interaction_id, key) DO UPDATE SET value = ...`
on the transaction's working view of `interaction_attributes`. -/
def upsertAttrRow (rows : List AttrRow) (interactionId : Int) (key value : List Char) :
    List AttrRow :=
  if rows.any (fun r => r.interactionId == interactionId && r.key == key) then
    rows.map (fun r =>
      if r.interactionId == interactionId && r.key == key then
        { r with value := value }
      else r)
  else rows ++ [⟨interactionId, key, value⟩]

/-- Body of the transaction in `db.SaveAttributes`: JSON-encode each value
(an encoding failure aborts), execute each UPSERT (which fails on the
`interaction_id` foreign-key violation when the interaction row is absent,
`PRAGMA foreign_keys=ON`), all against the transaction's working view. -/
def saveAttrsTx (interactions : List Interaction) (interactionId : Int) :
    List AttrRow → List (List Char × AttrVal) → Except Unit (List AttrRow)
  | rows, [] => .ok rows
  | rows, (key, val) :: rest =>
    match marshalAttr val with
    | none => .error ()
    | some enc =>
      if interactions.any (fun i => i.id == interactionId) then
        saveAttrsTx interactions interactionId
          (upsertAttrRow rows interactionId key enc) rest
      else .error ()

/-- Translation of `db.SaveAttributes`: an empty map returns nil before the
transaction begins; otherwise the per-key UPSERTs run inside one transaction,
committed on success and rolled back (deferred `tx.Rollback`) on any error. -/
def SaveAttributes (db : DBState) (interactionId : Int)
    (attrs : List (List Char × AttrVal)) : Except Unit Unit × DBState :=
  if attrs.length = 0 then (.ok (), db)
  else
    match saveAttrsTx db.interactions interactionId db.attrRows attrs with
    | .ok rows => (.ok (), { db with attrRows := rows })
    | .error _ => (.error (), db)

/-! ## internal/plugins/core/storage (plugin.go) -/

/-- Translation of `storage.Plugin.OnPreStore`: resolve the draft's token
value to a token id when not already set; an unknown value leaves the id 0.
(The database-error path of `GetTokenByValue` cannot arise in the pure
model.) -/
def storageOnPreStore (s : DBState) (d : InteractionDraft) :
    DBState × InteractionDraft × Bool :=
  if d.tokenId ≠ 0 then (s, d, false)
  else if d.tokenValue = [] then (s, d, false)
  else
    match GetTokenByValue s d.tokenValue with
    | some t => (s, { d with tokenId := t.id }, false)
    | none => (s, d, false)

/-- Translation of `storage.Plugin.CreateInteraction`: a draft whose token id
is 0 is silently not persisted (returns id 0, nil error); otherwise insert the
base interaction row and the kind-specific detail row. -/
def storageCreateInteraction (s : DBState) (d : InteractionDraft) :
    DBState × Except Unit Int :=
  if d.tokenId = 0 then (s, .ok 0)
  else
    let r := CreateInteraction s d.tokenId d.kind d.remoteIp d.remotePort d.tls
      d.summary d.occurredAt
    if d.kind = KindHTTP then
      match d.http with
      | some h =>
        (CreateHTTPInteraction r.2 r.1 h.method h.scheme h.host h.path h.query
          h.proto h.headers h.body, .ok r.1)
      | none => (r.2, .ok r.1)
    else if d.kind = KindDNS then
      match d.dns with
      | some dd =>
        (CreateDNSInteraction r.2 r.1 dd.qname dd.qtype dd.qclass dd.rd dd.opcode
          dd.dnsId dd.protocol, .ok r.1)
      | none => (r.2, .ok r.1)
    else (r.2, .ok r.1)

/-- Translation of `storage.Plugin.SaveAttributes` (delegates to
`db.SaveAttributes`); the Bool is the swallowed error flag. -/
def storageSaveAttributes (s : DBState) (interactionId : Int)
    (attrs : List (List Char × AttrVal)) : DBState × Bool :=
  match SaveAttributes s interactionId attrs with
  | (.ok _, s2) => (s2, false)
  | (.error _, s2) => (s2, true)

/-- The storage plugin as the pipeline's store. -/
def storageStore : Store DBState :=
  { createInteraction := storageCreateInteraction,
    saveAttributes := storageSaveAttributes }

/-- The storage plugin's pre-store hook. -/
def storagePreStoreHook : PreStoreHook DBState :=
  { run := storageOnPreStore }

/-! ## internal/plugins/core/defaultresponse (plugin.go) -/

/-- DNS wire constants (miekg/dns). -/
def TypeA : Nat := 1

/-- DNS type code for NS. -/
def TypeNS : Nat := 2

/-- DNS type code for SOA. -/
def TypeSOA : Nat := 6

/-- DNS type code for TXT. -/
def TypeTXT : Nat := 16

/-- DNS type code for AAAA. -/
def TypeAAAA : Nat := 28

/-- DNS rcode NOERROR. -/
def RcodeSuccess : Nat := 0

/-- DNS rcode NXDOMAIN. -/
def RcodeNameError : Nat := 3

/-- Translation of `defaultresponse.Plugin.OnHTTPResponse`: when not yet
handled, set a 200 "ok" response and mark the plan handled. -/
def defaultOnHTTPResponse (s : DBState) (_d : InteractionDraft)
    (p : HTTPResponsePlan) : DBState × HTTPResponsePlan × Bool :=
  if p.handled then (s, p, false)
  else (s, { p with status := 200, body := asciiBytes ("ok".toList), handled := true },
        false)

/-- Translation of `defaultresponse.Plugin.OnDNSResponse`: when not yet
handled and the query was type A, append an A record for the plugin's IP
(TTL 300, qname given a trailing dot) and mark the plan handled. -/
def defaultOnDNSResponse (ip : List Char) (s : DBState) (d : InteractionDraft)
    (p : DNSResponsePlan) : DBState × DNSResponsePlan × Bool :=
  if p.handled then (s, p, false)
  else
    match d.dns with
    | none => (s, p, false)
    | some dd =>
      if dd.qtype ≠ TypeA then (s, p, false)
      else
        let qname := if dd.qname ≠ [] ∧ dd.qname.getLast? ≠ some '.' then
            dd.qname ++ ['.']
          else dd.qname
        (s, { p with
                answers := p.answers ++ [⟨qname, TypeA, 300, RRData.a ip⟩],
                handled := true },
         false)

/-- The defaultresponse plugin's DNS hook (`New` falls back to 127.0.0.1 for
an unparsable IP; the parsed IP is passed in here). -/
def defaultDNSRespHook (ip : List Char) : DNSRespHook DBState :=
  { run := defaultOnDNSResponse ip }

/-- The defaultresponse plugin's HTTP hook. -/
def defaultHTTPRespHook : HTTPRespHook DBState :=
  { run := defaultOnHTTPResponse }

/-- The pipeline as the server wires it: store = storage plugin, plugins
registered in order storage, defaultresponse. -/
def serverPipeline (ip : List Char) : Pipeline DBState :=
  { store := some storageStore,
    preStore := [storagePreStoreHook],
    postStore := [],
    httpResponse := [defaultHTTPRespHook],
    dnsResponse := [defaultDNSRespHook ip] }

/-! ## internal/server/http.go: body capture in ServeHTTP -/

/-- The `1<<20` body cap in `HTTPServer.ServeHTTP`. -/
def maxBodyBytes : Nat := 2 ^ 20

/-- Model of `io.ReadAll` over `http.MaxBytesReader(w, r.Body, 1<<20)`:
returns the bytes read plus whether the read failed because the underlying
body exceeded the limit. -/
def readAllLimited (limit : Nat) (body : List Nat) : List Nat × Bool :=
  if body.length ≤ limit then (body, false) else (body.take limit, true)

/-- The body-capture step of `ServeHTTP` (part of src lines 120-125): on a
read error the partial data is discarded and the body set to nil. -/
def captureHTTPBody (body : List Nat) : List Nat :=
  let r := readAllLimited maxBodyBytes body
  if r.2 then [] else r.1

/-- Translation of the draft construction in `HTTPServer.ServeHTTP`
(src lines 106-146): scheme from TLS, summary `method path proto`, all request
headers copied, body via `captureHTTPBody`. -/
def buildHTTPDraft (token method proto host path query : List Char)
    (headers : List (List Char × List (List Char))) (remoteIp : List Char)
    (remotePort : Int) (tls : Bool) (occurredAt : Int) (body : List Nat) :
    InteractionDraft :=
  let scheme := if tls then "https".toList else "http".toList
  { tokenValue := token, tokenId := 0, kind := KindHTTP,
    occurredAt := occurredAt, remoteIp := remoteIp, remotePort := remotePort,
    tls := tls,
    summary := method ++ ' ' :: (path ++ ' ' :: proto),
    http := some { method := method, scheme := scheme, host := host,
                   path := path, query := query, proto := proto,
                   headers := headers, body := captureHTTPBody body },
    dns := none, attributes := [], drop := false }

/-! ## internal/server (dns.go, pipeline version): handleDNS per question -/

/-- Model of `dns.TypeToString` on the codes the claims exercise (the real
map is total over assigned types; others are irrelevant here). -/
def dnsTypeToString (t : Nat) : List Char :=
  if t = TypeA then "A".toList
  else if t = TypeNS then "NS".toList
  else if t = TypeSOA then "SOA".toList
  else if t = TypeTXT then "TXT".toList
  else if t = TypeAAAA then "AAAA".toList
  else []

/-- The DNS server configuration the per-question handler reads. -/
structure DNSConfig where
  domain : List Char
  publicIP : List Char
  txtGet : List Char → List (List Char)

/-- One DNS question as the handler sees it. -/
structure DNSQuestion where
  qnameRaw : List Char
  qtype : Nat
  qclass : Nat
  rd : Bool
  opcode : Nat
  dnsId : Nat

/-- Result of handling one question: the additions to the reply (answer RRs),
the rcode set by this question, and the database state after any pipeline
run. -/
structure DNSQuestionResult where
  rcode : Nat
  answers : List RRModel
  db : DBState

/-- Translation of the per-question body of `DNSServer.handleDNS` (pipeline
version, src lines 109-230): the SOA / NS / ns1 / apex-A / TXT shortcut
cascade, then token extraction — an empty token yields NXDOMAIN, any
nonempty token is drafted and run through the pipeline, whose response plan
supplies rcode and answers (a pipeline error is logged, not propagated). -/
def handleDNSQuestion (cfg : DNSConfig) (pl : Pipeline DBState) (db : DBState)
    (q : DNSQuestion) (protocol remoteIp : List Char) (remotePort occurredAt : Int) :
    DNSQuestionResult :=
  let qname := goToLower (goTrimSuffix q.qnameRaw ['.'])
  if q.qtype = TypeSOA ∧
      (qname = cfg.domain ∨ goHasSuffix qname ('.' :: cfg.domain)) then
    { rcode := RcodeSuccess,
      answers := [⟨cfg.domain ++ ['.'], TypeSOA, 300,
        RRData.soa ("ns1.".toList ++ cfg.domain ++ ['.'])
          ("hostmaster.".toList ++ cfg.domain ++ ['.']) 1 3600 600 604800 1⟩],
      db := db }
  else if q.qtype = TypeNS ∧ qname = cfg.domain then
    { rcode := RcodeSuccess,
      answers := [⟨q.qnameRaw, TypeNS, 300,
        RRData.ns ("ns1.".toList ++ cfg.domain ++ ['.'])⟩],
      db := db }
  else if qname = "ns1.".toList ++ cfg.domain then
    { rcode := RcodeSuccess,
      answers :=
        if q.qtype = TypeA ∧ cfg.publicIP ≠ [] then
          [⟨q.qnameRaw, TypeA, 300, RRData.a cfg.publicIP⟩]
        else [],
      db := db }
  else if qname = cfg.domain ∧ q.qtype = TypeA ∧ cfg.publicIP ≠ [] then
    { rcode := RcodeSuccess,
      answers := [⟨q.qnameRaw, TypeA, 300, RRData.a cfg.publicIP⟩],
      db := db }
  else if q.qtype = TypeTXT ∧ cfg.txtGet (NormalizeName q.qnameRaw) ≠ [] then
    { rcode := RcodeSuccess,
      answers := (cfg.txtGet (NormalizeName q.qnameRaw)).map
        (fun v => ⟨q.qnameRaw, TypeTXT, 1, RRData.txt v⟩),
      db := db }
  else
    let token := extractTokenFromQName qname cfg.domain
    if token = [] then
      { rcode := RcodeNameError, answers := [], db := db }
    else
      let draft : InteractionDraft :=
        { tokenValue := token, tokenId := 0, kind := KindDNS,
          occurredAt := occurredAt, remoteIp := remoteIp,
          remotePort := remotePort, tls := false,
          summary := dnsTypeToString q.qtype ++ ' ' :: (qname ++ ' ' :: protocol),
          http := none,
          dns := some { qname := qname, qtype := q.qtype, qclass := q.qclass,
                        rd := if q.rd then 1 else 0, opcode := q.opcode,
                        dnsId := q.dnsId, protocol := protocol },
          attributes := [], drop := false }
      let resp : DNSResponsePlan :=
        { rcode := RcodeSuccess, answers := [], handled := false }
      let r := ProcessDNS pl db draft resp
      { rcode := r.resp.rcode, answers := r.resp.answers, db := r.state }

/-! ## internal/server (api.go): ownership-scoped token fetch and delete -/

/-- Response as the API handlers produce it: either an error status with a
lowercase message, or the success payload. -/
inductive APIResponse where
  | err (status : Nat) (message : List Char)
  | okInteractions (token : List Char) (items : List Interaction)
  | okDeleted
  deriving DecidableEq, Repr

/-- Translation of `db.GetInteractionsByToken`
(`WHERE token_id = ? ORDER BY occurred_at DESC`). -/
def GetInteractionsByToken (db : DBState) (tokenId : Int) : List Interaction :=
  (db.interactions.filter (fun i => i.tokenId == tokenId)).insertionSort
    (fun a b => b.occurredAt ≤ a.occurredAt)

/-- Translation of `APIServer.handleGetInteractions` (src lines 178-273): an
absent token row, or a row whose `apiKeyId` is nil or differs from the
authenticated key, yields the same `404 token not found`. -/
def handleGetInteractions (db : DBState) (apiKeyID : Int) (tokenValue : List Char) :
    APIResponse :=
  if tokenValue = [] then .err 400 ("token required".toList)
  else
    match GetTokenByValue db tokenValue with
    | none => .err 404 ("token not found".toList)
    | some tok =>
      if tok.apiKeyId = some apiKeyID then
        .okInteractions tokenValue (GetInteractionsByToken db tok.id)
      else .err 404 ("token not found".toList)

/-- Translation of `APIServer.handleDeleteToken` (src lines 276-307): same
ownership gate; only the owned branch reaches `db.DeleteToken`. -/
def handleDeleteToken (db : DBState) (apiKeyID : Int) (tokenValue : List Char) :
    APIResponse × DBState :=
  if tokenValue = [] then (.err 400 ("token required".toList), db)
  else
    match GetTokenByValue db tokenValue with
    | none => (.err 404 ("token not found".toList), db)
    | some tok =>
      if tok.apiKeyId = some apiKeyID then (.okDeleted, DeleteToken db tokenValue)
      else (.err 404 ("token not found".toList), db)

/-! ## Helper lemmas about the Go string primitives -/

theorem goHasSuffix_iff (s suf : List Char) : goHasSuffix s suf = true ↔ suf <:+ s := by
  unfold goHasSuffix
  rw [Bool.and_eq_true, decide_eq_true_iff, beq_iff_eq]
  constructor
  · rintro ⟨hlen, hdrop⟩
    exact ⟨s.take (s.length - suf.length),
      by conv_rhs => rw [← List.take_append_drop (s.length - suf.length) s, hdrop]⟩
  · rintro ⟨t, ht⟩
    subst ht
    constructor
    · simp
    · have : (t ++ suf).length - suf.length = t.length := by simp
      rw [this, List.drop_left]

theorem goTrimSuffix_append (t suf : List Char) : goTrimSuffix (t ++ suf) suf = t := by
  unfold goTrimSuffix
  rw [if_pos ((goHasSuffix_iff _ _).mpr ⟨t, rfl⟩)]
  have : (t ++ suf).length - suf.length = t.length := by simp
  rw [this, List.take_left]

theorem goTrimSuffix_of_not (s suf : List Char) (h : goHasSuffix s suf = false) :
    goTrimSuffix s suf = s := by
  unfold goTrimSuffix
  rw [h]
  simp

theorem goStartsWith_append (p r : List Char) : goStartsWith (p ++ r) p = true := by
  unfold goStartsWith
  rw [Bool.and_eq_true, decide_eq_true_iff, beq_iff_eq]
  exact ⟨by simp, List.take_left p r⟩

theorem goTrimPfx_append (p r : List Char) : goTrimPfx (p ++ r) p = r := by
  unfold goTrimPfx
  rw [if_pos (goStartsWith_append p r), List.drop_left]

theorem char_le_iff (a b : Char) : a ≤ b ↔ a.toNat ≤ b.toNat := by
  simp [Char.le_def, UInt32.le_def, BitVec.le_def, Char.toNat, UInt32.toNat]

theorem toNat_ofNat_valid (n : Nat) (h : n < 0xD800) : (Char.ofNat n).toNat = n := by
  have hv : n.isValidChar := Or.inl h
  simp [Char.ofNat, hv, Char.toNat, Char.ofNatAux, UInt32.toNat, UInt32.ofNatCore]

theorem goToLowerChar_idem (c : Char) : goToLowerChar (goToLowerChar c) = goToLowerChar c := by
  unfold goToLowerChar
  by_cases h : ('A' ≤ c && c ≤ 'Z') = true
  · simp only [h, if_pos]
    simp only [Bool.and_eq_true, decide_eq_true_eq, char_le_iff] at h
    have h1 : 65 ≤ c.toNat := h.1
    have h2 : c.toNat ≤ 90 := h.2
    have hlt : c.toNat + 32 < 0xD800 := by omega
    have ht : (Char.ofNat (c.toNat + 32)).toNat = c.toNat + 32 := toNat_ofNat_valid _ hlt
    have hz : ('A' ≤ Char.ofNat (c.toNat + 32) && Char.ofNat (c.toNat + 32) ≤ 'Z') = false := by
      rw [Bool.and_eq_false_iff]
      right
      rw [decide_eq_false_iff_not, char_le_iff, ht]
      have : Char.toNat 'Z' = 90 := by decide
      omega
    rw [hz]
    simp
  · simp [h]

theorem goToLowerChar_eq_dot (c : Char) (h : goToLowerChar c = '.') : c = '.' := by
  unfold goToLowerChar at h
  by_cases hc : ('A' ≤ c && c ≤ 'Z') = true
  · rw [if_pos hc] at h
    simp only [Bool.and_eq_true, decide_eq_true_eq, char_le_iff] at hc
    have h1 : 65 ≤ c.toNat := hc.1
    have h2 : c.toNat ≤ 90 := hc.2
    have ht : (Char.ofNat (c.toNat + 32)).toNat = c.toNat + 32 := toNat_ofNat_valid _ (by omega)
    have : (Char.ofNat (c.toNat + 32)).toNat = ('.').toNat := by rw [h]
    rw [ht] at this
    have hd : ('.').toNat = 46 := by decide
    omega
  · rwa [if_neg (by simpa using hc)] at h

theorem goToLower_idem (s : List Char) : goToLower (goToLower s) = goToLower s := by
  unfold goToLower
  rw [List.map_map]
  exact List.map_congr_left (fun a _ => goToLowerChar_idem a)

theorem normalizeName_idem (s : List Char) (h : goHasSuffix s ['.', '.'] = false) :
    NormalizeName (NormalizeName s) = NormalizeName s := by
  unfold NormalizeName
  by_cases hb : goHasSuffix (goToLower s) ['.'] = true
  · obtain ⟨t, ht⟩ := (goHasSuffix_iff _ _).mp hb
    rw [← ht, goTrimSuffix_append]
    obtain ⟨l₁, l₂, hs, hm1, hm2⟩ := List.map_eq_append_iff.mp ht.symm
    have hlt : goToLower t = t := by
      rw [← hm1]
      show goToLower (goToLower l₁) = goToLower l₁
      exact goToLower_idem l₁
    rw [hlt]
    have hnd : goHasSuffix t ['.'] = false := by
      by_contra hx
      rw [Bool.not_eq_false] at hx
      obtain ⟨u, hu⟩ := (goHasSuffix_iff _ _).mp hx
      have hls : u ++ ['.', '.'] = goToLower s := by
        rw [← ht, ← hu]
        simp
      obtain ⟨m₁, m₂, hsm, hmm1, hmm2⟩ := List.map_eq_append_iff.mp hls.symm
      obtain ⟨a, r₁, hr, ha, hrest⟩ := List.map_eq_cons_iff.mp hmm2
      obtain ⟨b, r₂, hr2, hb2, hrest2⟩ := List.map_eq_cons_iff.mp hrest
      have hr2nil : r₂ = [] := by simpa using hrest2
      have ha' : a = '.' := goToLowerChar_eq_dot a ha
      have hb' : b = '.' := goToLowerChar_eq_dot b hb2
      have : goHasSuffix s ['.', '.'] = true := by
        rw [goHasSuffix_iff]
        exact ⟨m₁, by rw [hsm, hr, hr2, hr2nil, ha', hb']⟩
      rw [this] at h
      exact absurd h (by simp)
    rw [goTrimSuffix_of_not _ _ hnd]
  · rw [Bool.not_eq_true] at hb
    rw [goTrimSuffix_of_not _ _ hb, goToLower_idem, goTrimSuffix_of_not _ _ hb]


/-! ## Claim C8: NormalizeName -/

/-- C8 (corrected, counterexample): the claimed idempotence fails at the
concrete input "a..": one application yields "a.", a second yields "a". -/
theorem C8_counterexample :
    NormalizeName (NormalizeName ("a..".toList)) ≠ NormalizeName ("a..".toList) := by
  decide

/-- C8 (amended): normalizeName("EXAMPLE.com.") = "example.com", and
normalizeName is idempotent on every input that does not end in two dots
(an input ending in ".." loses one more trailing dot on the second
application). -/
theorem C8_normalizeName :
    NormalizeName ("EXAMPLE.com.".toList) = "example.com".toList ∧
    ∀ s : List Char, goHasSuffix s ['.', '.'] = false →
      NormalizeName (NormalizeName s) = NormalizeName s := by
  constructor
  · decide
  · exact normalizeName_idem

/-- Witness for C8 at the concrete input "x.". -/
theorem C8_normalizeName_witness :
    NormalizeName (NormalizeName ("x.".toList)) = NormalizeName ("x.".toList) :=
  C8_normalizeName.2 ("x.".toList) (by decide)

/-! ## Claim C7: API-key display/parse round trip -/

theorem goSplitOnce_marker (p s : List Char) (sep : Char) (h : ∀ c ∈ p, c ≠ sep) :
    goSplitOnce (p ++ sep :: s) sep = some (p, s) := by
  induction p with
  | nil => simp [goSplitOnce]
  | cons c rest ih =>
    have hc : c ≠ sep := h c (List.mem_cons_self c rest)
    simp only [List.cons_append, goSplitOnce, if_neg hc, List.append_eq]
    rw [ih (fun x hx => h x (List.mem_cons_of_mem c hx))]

/-- C7 (confirmed): parsing the display form `oastrix_<prefix>_<secret>`
recovers exactly the prefix and secret, for every 12-character
lowercase-alphanumeric prefix and every secret string (in particular every
base62 secret the generator produces). -/
theorem C7_apikey_roundtrip (keyPfx secret : List Char)
    (hlen : keyPfx.length = prefixLength)
    (halnum : ∀ c ∈ keyPfx, isAlphanumeric c = true) :
    ParseAPIKey (apiKeyDisplay keyPfx secret) = .ok (keyPfx, secret) := by
  have hform : apiKeyDisplay keyPfx secret =
      (servicePfx ++ ['_']) ++ (keyPfx ++ '_' :: secret) := by
    simp [apiKeyDisplay]
  have hnu : ∀ c ∈ keyPfx, c ≠ '_' := by
    intro c hc he
    have := halnum c hc
    rw [he] at this
    exact absurd this (by decide)
  unfold ParseAPIKey
  rw [hform, if_pos (goStartsWith_append _ _)]
  simp only [goTrimPfx_append, goSplitOnce_marker keyPfx secret '_' hnu]
  rw [if_pos hlen, if_pos (List.all_eq_true.mpr halnum)]

/-- Witness for C7 at a concrete prefix and secret. -/
theorem C7_apikey_roundtrip_witness :
    ParseAPIKey (apiKeyDisplay ("abcdef123456".toList) ("SomeSecret42".toList)) =
      .ok ("abcdef123456".toList, "SomeSecret42".toList) :=
  C7_apikey_roundtrip _ _ (by decide) (by decide)

/-! ## Claim C4: HTTP ExtractToken -/

theorem dropWhile_of_all_false {α : Type} (p : α → Bool) (l : List α)
    (h : ∀ c ∈ l, p c = false) : l.dropWhile p = l := by
  induction l with
  | nil => rfl
  | cons a t ih =>
    rw [List.dropWhile_cons, h a (List.mem_cons_self a t)]
    simp [ih (fun x hx => h x (List.mem_cons_of_mem a hx))]

theorem goTrimChars_id (s cutset : List Char)
    (h : ∀ c ∈ s, cutset.contains c = false) : goTrimChars s cutset = s := by
  unfold goTrimChars
  rw [dropWhile_of_all_false _ s h]
  rw [dropWhile_of_all_false _ s.reverse (fun c hc => h c (List.mem_reverse.mp hc))]
  exact List.reverse_reverse s

theorem goSplitOnce_eq_none (s : List Char) (sep : Char) (h : ∀ c ∈ s, c ≠ sep) :
    goSplitOnce s sep = none := by
  induction s with
  | nil => rfl
  | cons c t ih =>
    simp only [goSplitOnce, if_neg (h c (List.mem_cons_self c t))]
    rw [ih (fun x hx => h x (List.mem_cons_of_mem c hx))]

theorem goSplitLast_eq_none (s : List Char) (sep : Char) (h : ∀ c ∈ s, c ≠ sep) :
    goSplitLast s sep = none := by
  unfold goSplitLast
  rw [goSplitOnce_eq_none s.reverse sep (fun c hc => h c (List.mem_reverse.mp hc))]

theorem goHasSuffix_of_longer (s suf : List Char) (h : s.length < suf.length) :
    goHasSuffix s suf = false := by
  unfold goHasSuffix
  rw [decide_eq_false (by omega)]
  rfl

theorem goSplitHostPort_eq_none (hp : List Char) (h : ∀ c ∈ hp, c ≠ ':') :
    goSplitHostPort hp = none := by
  unfold goSplitHostPort
  rw [goSplitLast_eq_none hp ':' h]

/-- C4 (corrected, counterexample): on host `sub1.sub2.<apex>` ExtractToken
returns "sub2" (the label adjacent to the apex), not the claimed "sub1". -/
theorem C4_counterexample :
    ExtractToken ("sub1.sub2.oastrix.example.com".toList) ("/".toList)
        ("oastrix.example.com".toList) ≠ "sub1".toList := by
  decide

/-- C4 (amended): for every apex free of ':' and brackets,
ExtractToken(host="sub1.sub2.<apex>") = "sub2" — the rightmost subdomain
label, the one adjacent to the apex — and ExtractToken(host="<apex>") = "". -/
theorem C4_extractToken (apex : List Char)
    (h : ∀ c ∈ apex, c ≠ ':' ∧ c ≠ '[' ∧ c ≠ ']') :
    ExtractToken ("sub1.sub2.".toList ++ apex) ("/".toList) apex = "sub2".toList ∧
    ExtractToken apex ("/".toList) apex = [] := by
  have hlitc : ∀ c ∈ "sub1.sub2.".toList, c ≠ ':' := by decide
  have hlitb : ∀ c ∈ "sub1.sub2.".toList, (['[', ']'] : List Char).contains c = false := by
    decide
  have hb : ∀ c ∈ apex, (['[', ']'] : List Char).contains c = false := by
    intro c hc
    have h2 := (h c hc).2
    simp [h2.1, h2.2]
  constructor
  · have hsp : goSplitHostPort ("sub1.sub2.".toList ++ apex) = none := by
      apply goSplitHostPort_eq_none
      intro c hc
      rcases List.mem_append.mp hc with hl | hr
      · exact hlitc c hl
      · exact (h c hr).1
    have htc : goTrimChars ("sub1.sub2.".toList ++ apex) ['[', ']'] =
        "sub1.sub2.".toList ++ apex := by
      apply goTrimChars_id
      intro c hc
      rcases List.mem_append.mp hc with hl | hr
      · exact hlitb c hl
      · exact hb c hr
    unfold ExtractToken
    rw [hsp]
    show (let host := goTrimChars ("sub1.sub2.".toList ++ apex) ['[', ']'];
      if goHasSuffix host ('.' :: apex) then
        let subdomain := goTrimSuffix host ('.' :: apex)
        let subdomain := match goSplitLast subdomain '.' with
          | some (_, afterDot) => afterDot
          | none => subdomain
        if subdomain ≠ [] then subdomain else extractTokenFromPath ("/".toList)
      else extractTokenFromPath ("/".toList)) = "sub2".toList
    rw [htc]
    have hsplit : ("sub1.sub2.".toList : List Char) ++ apex =
        "sub1.sub2".toList ++ ('.' :: apex) := rfl
    rw [hsplit, if_pos ((goHasSuffix_iff _ _).mpr ⟨_, rfl⟩), goTrimSuffix_append]
    decide
  · have hsp : goSplitHostPort apex = none :=
      goSplitHostPort_eq_none apex (fun c hc => (h c hc).1)
    have htc : goTrimChars apex ['[', ']'] = apex := goTrimChars_id apex _ hb
    unfold ExtractToken
    rw [hsp]
    show (let host := goTrimChars apex ['[', ']'];
      if goHasSuffix host ('.' :: apex) then
        let subdomain := goTrimSuffix host ('.' :: apex)
        let subdomain := match goSplitLast subdomain '.' with
          | some (_, afterDot) => afterDot
          | none => subdomain
        if subdomain ≠ [] then subdomain else extractTokenFromPath ("/".toList)
      else extractTokenFromPath ("/".toList)) = []
    rw [htc]
    rw [if_neg]
    · decide
    · rw [goHasSuffix_of_longer apex ('.' :: apex) (by simp)]
      simp

/-- Witness for C4 at the concrete apex oastrix.example.com. -/
theorem C4_extractToken_witness :
    ExtractToken ("sub1.sub2.".toList ++ "oastrix.example.com".toList) ("/".toList)
        ("oastrix.example.com".toList) = "sub2".toList ∧
    ExtractToken ("oastrix.example.com".toList) ("/".toList)
        ("oastrix.example.com".toList) = [] :=
  C4_extractToken ("oastrix.example.com".toList) (by decide)


/-! ## Claim C5: migrations -/

theorem runMigrations_sublist :
    ∀ (l : List (List Char)) (applied : List Int) (execs : List (List Char × Int)),
      runMigrations l applied = .ok execs → List.Sublist (execs.map Prod.fst) l := by
  intro l
  induction l with
  | nil =>
    intro applied execs h
    simp only [runMigrations] at h
    cases h
    simp
  | cons name rest ih =>
    intro applied execs h
    simp only [runMigrations] at h
    cases hp : parseVersion name with
    | none => rw [hp] at h; cases h
    | some v =>
      rw [hp] at h
      simp only [] at h
      by_cases hc : applied.contains v = true
      · rw [if_pos hc] at h
        exact (ih applied execs h).cons name
      · rw [if_neg hc] at h
        cases hr : runMigrations rest (v :: applied) with
        | ok es =>
          rw [hr] at h
          cases h
          simpa using (ih (v :: applied) es hr).cons₂ name
        | error e => rw [hr] at h; cases h

theorem runMigrations_fresh :
    ∀ (l : List (List Char)) (applied : List Int) (execs : List (List Char × Int)),
      runMigrations l applied = .ok execs → ∀ e ∈ execs, ¬ applied.contains e.2 = true := by
  intro l
  induction l with
  | nil =>
    intro applied execs h
    simp only [runMigrations] at h
    cases h
    simp
  | cons name rest ih =>
    intro applied execs h
    simp only [runMigrations] at h
    cases hp : parseVersion name with
    | none => rw [hp] at h; cases h
    | some v =>
      rw [hp] at h
      simp only [] at h
      by_cases hc : applied.contains v = true
      · rw [if_pos hc] at h
        exact ih applied execs h
      · rw [if_neg hc] at h
        cases hr : runMigrations rest (v :: applied) with
        | ok es =>
          rw [hr] at h
          cases h
          intro e he
          rcases List.mem_cons.mp he with he1 | he2
          · subst he1
            exact hc
          · have := ih (v :: applied) es hr e he2
            intro hmem
            exact this (by
              simp only [List.contains_cons, Bool.or_eq_true]
              right
              exact hmem)
        | error e => rw [hr] at h; cases h

theorem runMigrations_error_of_bad :
    ∀ (l : List (List Char)) (applied : List Int),
      (∃ n ∈ l, parseVersion n = none) → runMigrations l applied = .error () := by
  intro l
  induction l with
  | nil =>
    intro applied h
    rcases h with ⟨n, hn, _⟩
    cases hn
  | cons name rest ih =>
    intro applied h
    simp only [runMigrations]
    cases hp : parseVersion name with
    | none => rfl
    | some v =>
      rcases h with ⟨n, hn, hbad⟩
      rcases List.mem_cons.mp hn with h1 | h2
      · subst h1
        rw [hp] at hbad
        cases hbad
      · have hrec : ∀ ap, runMigrations rest ap = .error () :=
          fun ap => ih ap ⟨n, h2, hbad⟩
        simp only []
        by_cases hc : applied.contains v = true
        · rw [if_pos hc]
          exact hrec applied
        · rw [if_neg hc, hrec (v :: applied)]

/-- C5 (corrected, counterexample): with discovered files 10_a.sql and
2_b.sql, the engine executes version 10 before version 2 (sort.Strings is
lexicographic), so the executed version sequence is not ascending. -/
theorem C5_counterexample :
    applyMigrations ["10_a.sql".toList, "2_b.sql".toList] [] =
      .ok [("10_a.sql".toList, (10 : Int)), ("2_b.sql".toList, (2 : Int))] ∧
    ¬ (10 : Int) ≤ 2 := by
  constructor
  · rfl
  · decide

/-- C5 (amended): the engine applies the discovered .sql migrations in
ascending lexicographic filename order (which matches numeric-version order
only for equal-width prefixes), skipping already-applied versions; and any
.sql filename whose segment before the first underscore is not an integer is
a fatal startup error. -/
theorem C5_migrations (entries : List (List Char)) (applied : List Int) :
    (∀ execs, applyMigrations entries applied = .ok execs →
        List.Pairwise (· ≤ ·) (execs.map Prod.fst) ∧
        ∀ e ∈ execs, ¬ applied.contains e.2 = true) ∧
    ((∃ name ∈ entries, goHasSuffix name (".sql".toList) = true ∧
        parseVersion name = none) →
      applyMigrations entries applied = .error ()) := by
  constructor
  · intro execs h
    unfold applyMigrations at h
    constructor
    · have hsub := runMigrations_sublist _ _ _ h
      have hsorted : List.Pairwise (· ≤ ·) (discoverMigrations entries) :=
        List.sorted_insertionSort (· ≤ ·) _
      exact hsorted.sublist hsub
    · exact runMigrations_fresh _ _ _ h
  · intro hbad
    unfold applyMigrations
    apply runMigrations_error_of_bad
    rcases hbad with ⟨name, hmem, hsql, hnone⟩
    refine ⟨name, ?_, hnone⟩
    unfold discoverMigrations sortStrings
    rw [(List.perm_insertionSort (· ≤ ·) _).mem_iff]
    exact List.mem_filter.mpr ⟨hmem, hsql⟩

/-- Witness for C5 at a concrete migration set. -/
theorem C5_migrations_witness :
    (applyMigrations ["001_init.sql".toList, "002_plugin_tables.sql".toList] [1] =
        .ok [("002_plugin_tables.sql".toList, (2 : Int))] ∧
      List.Pairwise (fun (a b : List Char) => a ≤ b)
        (([("002_plugin_tables.sql".toList, (2 : Int))]).map Prod.fst) ∧
      applyMigrations ["badxx_name.sql".toList] [] = .error ()) := by
  refine ⟨rfl, ?_, ?_⟩
  · exact ((C5_migrations ["001_init.sql".toList, "002_plugin_tables.sql".toList]
      [1]).1 _ rfl).1
  · exact (C5_migrations ["badxx_name.sql".toList] []).2
      ⟨"badxx_name.sql".toList, by decide, by decide, by decide⟩


/-! ## Claim C3: HTTP body capture -/

theorem captureHTTPBody_of_le (b : List Nat) (h : b.length ≤ maxBodyBytes) :
    captureHTTPBody b = b := by
  unfold captureHTTPBody
  rw [show readAllLimited maxBodyBytes b = (b, false) from by
    unfold readAllLimited; rw [if_pos h]]
  rfl

theorem captureHTTPBody_of_gt (b : List Nat) (h : maxBodyBytes < b.length) :
    captureHTTPBody b = [] := by
  unfold captureHTTPBody
  rw [show readAllLimited maxBodyBytes b = (b.take maxBodyBytes, true) from by
    unfold readAllLimited; rw [if_neg (by omega)]]
  rfl

/-- C3 (corrected, counterexample): for a body of 2^20 + 1 bytes the read
over MaxBytesReader errors, ServeHTTP discards the partial data, and the
captured body is empty — not the first 1 MiB. -/
theorem C3_counterexample :
    captureHTTPBody (List.replicate (2 ^ 20 + 1) 37) = [] ∧
    captureHTTPBody (List.replicate (2 ^ 20 + 1) 37) ≠
      (List.replicate (2 ^ 20 + 1) 37).take (2 ^ 20) := by
  have hlen : (List.replicate (2 ^ 20 + 1) (37 : Nat)).length = 2 ^ 20 + 1 :=
    List.length_replicate _ _
  have hcap : captureHTTPBody (List.replicate (2 ^ 20 + 1) 37) = [] := by
    apply captureHTTPBody_of_gt
    rw [hlen]
    decide
  refine ⟨hcap, ?_⟩
  rw [hcap]
  intro he
  have hc := congrArg List.length he
  rw [List.length_take, hlen] at hc
  simp at hc

/-- C3 (amended): the HTTP draft contains every request header; a body of at
most 1 MiB is captured whole, while a body exceeding 1 MiB is captured as
empty (the failed MaxBytesReader read discards the partial data). -/
theorem C3_http_draft (token method proto host path query : List Char)
    (headers : List (List Char × List (List Char))) (remoteIp : List Char)
    (remotePort : Int) (tls : Bool) (occurredAt : Int) (body : List Nat) :
    ((buildHTTPDraft token method proto host path query headers remoteIp
        remotePort tls occurredAt body).http.map (fun h => h.headers)) =
      some headers ∧
    (body.length ≤ maxBodyBytes →
      ((buildHTTPDraft token method proto host path query headers remoteIp
          remotePort tls occurredAt body).http.map (fun h => h.body)) =
        some body) ∧
    (maxBodyBytes < body.length →
      ((buildHTTPDraft token method proto host path query headers remoteIp
          remotePort tls occurredAt body).http.map (fun h => h.body)) =
        some []) := by
  refine ⟨rfl, ?_, ?_⟩
  · intro hle
    simp [buildHTTPDraft, captureHTTPBody_of_le body hle]
  · intro hgt
    simp [buildHTTPDraft, captureHTTPBody_of_gt body hgt]

/-- Witness for C3 at a concrete small request. -/
theorem C3_http_draft_witness :
    ((buildHTTPDraft ("tok".toList) ("POST".toList) ("HTTP/1.1".toList)
        ("h".toList) ("/p".toList) [] [] ("ip".toList) 1 false 0
        [1, 2, 3]).http.map (fun h => h.body)) = some [1, 2, 3] :=
  (C3_http_draft ("tok".toList) ("POST".toList) ("HTTP/1.1".toList)
    ("h".toList) ("/p".toList) [] [] ("ip".toList) 1 false 0 [1, 2, 3]).2.1
    (by decide)


/-! ## Claim C6: pipeline hook discipline -/

theorem runPreHooks_trace {σ : Type} :
    ∀ (hooks : List (PreStoreHook σ)) (i : Nat) (s : σ) (d : InteractionDraft),
      (runPreHooks hooks i s d).2.2 =
        (List.range' i hooks.length).map (fun j => (j, Phase.preStoreP)) := by
  intro hooks
  induction hooks with
  | nil => intro i s d; rfl
  | cons h rest ih =>
    intro i s d
    simp only [runPreHooks]
    rw [ih (i + 1) (h.run s d).1 (h.run s d).2.1]
    rfl

theorem runPostHooks_trace {σ : Type} :
    ∀ (hooks : List (PostStoreHook σ)) (i : Nat) (s : σ) (d : InteractionDraft)
      (interactionId : Int),
      (runPostHooks hooks i s d interactionId).2 =
        (List.range' i hooks.length).map (fun j => (j, Phase.postStoreP)) := by
  intro hooks
  induction hooks with
  | nil => intro i s d interactionId; rfl
  | cons h rest ih =>
    intro i s d interactionId
    simp only [runPostHooks]
    rw [ih (i + 1) (h.run s d interactionId).1 d interactionId]
    rfl

theorem runDNSRespHooks_trace {σ : Type} :
    ∀ (hooks : List (DNSRespHook σ)) (i : Nat) (s : σ) (d : InteractionDraft)
      (plan : DNSResponsePlan),
      (runDNSRespHooks hooks i s d plan).2.2 =
        (List.range' i (specRespCountDNS hooks s d plan)).map
          (fun j => (j, Phase.responseP)) := by
  intro hooks
  induction hooks with
  | nil => intro i s d plan; rfl
  | cons h rest ih =>
    intro i s d plan
    simp only [runDNSRespHooks, specRespCountDNS]
    by_cases hb : (h.run s d plan).2.1.handled = true
    · rw [if_pos hb, if_pos hb]
      rfl
    · rw [if_neg hb, if_neg hb]
      rw [ih (i + 1) (h.run s d plan).1 d (h.run s d plan).2.1]
      rw [Nat.add_comm 1 (specRespCountDNS rest (h.run s d plan).1 d (h.run s d plan).2.1)]
      rfl

theorem runHTTPRespHooks_trace {σ : Type} :
    ∀ (hooks : List (HTTPRespHook σ)) (i : Nat) (s : σ) (d : InteractionDraft)
      (plan : HTTPResponsePlan),
      (runHTTPRespHooks hooks i s d plan).2.2 =
        (List.range' i (specRespCountHTTP hooks s d plan)).map
          (fun j => (j, Phase.responseP)) := by
  intro hooks
  induction hooks with
  | nil => intro i s d plan; rfl
  | cons h rest ih =>
    intro i s d plan
    simp only [runHTTPRespHooks, specRespCountHTTP]
    by_cases hb : (h.run s d plan).2.1.handled = true
    · rw [if_pos hb, if_pos hb]
      rfl
    · rw [if_neg hb, if_neg hb]
      rw [ih (i + 1) (h.run s d plan).1 d (h.run s d plan).2.1]
      rw [Nat.add_comm 1 (specRespCountHTTP rest (h.run s d plan).1 d (h.run s d plan).2.1)]
      rfl

theorem storeStep_abort_iff {σ : Type} (store : Option (Store σ)) (s : σ)
    (d : InteractionDraft) :
    (storeStep store s d).2.2 = true ↔
      d.drop = false ∧ ∃ st, store = some st ∧
        (st.createInteraction s d).2 = .error () := by
  unfold storeStep
  by_cases hd : d.drop = false
  · rw [if_pos hd]
    cases store with
    | none => simp
    | some st =>
      simp only []
      rcases hc : st.createInteraction s d with ⟨s2, e⟩
      cases e with
      | error u =>
        simp only []
        exact ⟨fun _ => ⟨hd, st, rfl, by rw [hc]⟩, fun _ => by trivial⟩
      | ok id =>
        constructor
        · intro hfalse
          simp only [] at hfalse
          split at hfalse <;> simp at hfalse
        · rintro ⟨_, st2, hst2, herr⟩
          cases hst2
          rw [hc] at herr
          cases herr
  · rw [if_neg hd]
    simp only []
    constructor
    · intro hfalse
      cases hfalse
    · rintro ⟨hdrop, _⟩
      exact absurd hdrop hd


theorem ProcessDNS_eq {σ : Type} (p : Pipeline σ) (s : σ) (d : InteractionDraft)
    (resp : DNSResponsePlan) :
    ProcessDNS p s d resp =
      if (storeStep p.store (preState p s d) (preDraft p s d)).2.2 then
        { state := (storeStep p.store (preState p s d) (preDraft p s d)).1,
          draft := preDraft p s d, interactionId := 0, resp := resp,
          failed := true, trace := (runPreHooks p.preStore 0 s d).2.2 }
      else
        { state := (runDNSRespHooks p.dnsResponse 0 (postState p s d)
              (preDraft p s d) resp).1,
          draft := preDraft p s d,
          interactionId := (storeStep p.store (preState p s d) (preDraft p s d)).2.1,
          resp := (runDNSRespHooks p.dnsResponse 0 (postState p s d)
              (preDraft p s d) resp).2.1,
          failed := false,
          trace := (runPreHooks p.preStore 0 s d).2.2 ++
            (runPostHooks p.postStore 0
              (storeStep p.store (preState p s d) (preDraft p s d)).1
              (preDraft p s d)
              (storeStep p.store (preState p s d) (preDraft p s d)).2.1).2 ++
            (runDNSRespHooks p.dnsResponse 0 (postState p s d)
              (preDraft p s d) resp).2.2 } := rfl

theorem ProcessHTTP_eq {σ : Type} (p : Pipeline σ) (s : σ) (d : InteractionDraft)
    (resp : HTTPResponsePlan) :
    ProcessHTTP p s d resp =
      if (storeStep p.store (preState p s d) (preDraft p s d)).2.2 then
        { state := (storeStep p.store (preState p s d) (preDraft p s d)).1,
          draft := preDraft p s d, interactionId := 0, resp := resp,
          failed := true, trace := (runPreHooks p.preStore 0 s d).2.2 }
      else
        { state := (runHTTPRespHooks p.httpResponse 0 (postState p s d)
              (preDraft p s d) resp).1,
          draft := preDraft p s d,
          interactionId := (storeStep p.store (preState p s d) (preDraft p s d)).2.1,
          resp := (runHTTPRespHooks p.httpResponse 0 (postState p s d)
              (preDraft p s d) resp).2.1,
          failed := false,
          trace := (runPreHooks p.preStore 0 s d).2.2 ++
            (runPostHooks p.postStore 0
              (storeStep p.store (preState p s d) (preDraft p s d)).1
              (preDraft p s d)
              (storeStep p.store (preState p s d) (preDraft p s d)).2.1).2 ++
            (runHTTPRespHooks p.httpResponse 0 (postState p s d)
              (preDraft p s d) resp).2.2 } := rfl


/-- C6 (amended): for every pipeline run, every pre-store hook runs exactly
once in registration order regardless of hook errors; the run fails exactly
when the draft was not dropped, a store is set, and its CreateInteraction
errors (hook errors never fail the run); when the run does not abort, every
post-store hook runs exactly once in order and the response chain runs in
order until a hook leaves the plan handled; when storage aborts the run
(the correction: the claim said post-store hooks always run), post-store and
response hooks are skipped.  Both ProcessDNS and ProcessHTTP. -/
theorem C6_pipeline (σ : Type) (p : Pipeline σ) (s : σ) (d : InteractionDraft)
    (respD : DNSResponsePlan) (respH : HTTPResponsePlan) :
    ((ProcessDNS p s d respD).failed = abortFlag p s d ∧
      (ProcessHTTP p s d respH).failed = abortFlag p s d) ∧
    (abortFlag p s d = true ↔
      (preDraft p s d).drop = false ∧ ∃ st, p.store = some st ∧
        (st.createInteraction (preState p s d) (preDraft p s d)).2 = .error ()) ∧
    ((ProcessDNS p s d respD).trace =
      (List.range p.preStore.length).map (fun j => (j, Phase.preStoreP)) ++
      (if abortFlag p s d then []
       else
         (List.range p.postStore.length).map (fun j => (j, Phase.postStoreP)) ++
         (List.range (specRespCountDNS p.dnsResponse (postState p s d)
             (preDraft p s d) respD)).map (fun j => (j, Phase.responseP)))) ∧
    ((ProcessHTTP p s d respH).trace =
      (List.range p.preStore.length).map (fun j => (j, Phase.preStoreP)) ++
      (if abortFlag p s d then []
       else
         (List.range p.postStore.length).map (fun j => (j, Phase.postStoreP)) ++
         (List.range (specRespCountHTTP p.httpResponse (postState p s d)
             (preDraft p s d) respH)).map (fun j => (j, Phase.responseP)))) := by
  by_cases hab : (storeStep p.store (preState p s d) (preDraft p s d)).2.2 = true
  · have habf : abortFlag p s d = true := hab
    refine ⟨⟨?_, ?_⟩, ?_, ?_, ?_⟩
    · rw [ProcessDNS_eq, if_pos hab, habf]
    · rw [ProcessHTTP_eq, if_pos hab, habf]
    · rw [habf]
      simp only [true_iff]
      exact (storeStep_abort_iff _ _ _).mp hab
    · rw [ProcessDNS_eq, if_pos hab, habf, if_pos rfl]
      show (runPreHooks p.preStore 0 s d).2.2 = _
      rw [runPreHooks_trace, List.append_nil]
      simp only [List.range_eq_range']
    · rw [ProcessHTTP_eq, if_pos hab, habf, if_pos rfl]
      show (runPreHooks p.preStore 0 s d).2.2 = _
      rw [runPreHooks_trace, List.append_nil]
      simp only [List.range_eq_range']
  · have habf : abortFlag p s d = false := by
      cases h2 : (storeStep p.store (preState p s d) (preDraft p s d)).2.2 with
      | false => exact h2
      | true => exact absurd h2 hab
    refine ⟨⟨?_, ?_⟩, ?_, ?_, ?_⟩
    · rw [ProcessDNS_eq, if_neg hab, habf]
    · rw [ProcessHTTP_eq, if_neg hab, habf]
    · rw [habf]
      constructor
      · intro hcontra
        exact absurd hcontra Bool.false_ne_true
      · intro hcontra
        exact absurd ((storeStep_abort_iff _ _ _).mpr hcontra) hab
    · rw [ProcessDNS_eq, if_neg hab, habf, if_neg Bool.false_ne_true]
      show (runPreHooks p.preStore 0 s d).2.2 ++ _ ++ _ = _
      rw [runPreHooks_trace, runPostHooks_trace, runDNSRespHooks_trace,
        List.append_assoc]
      simp only [List.range_eq_range']
    · rw [ProcessHTTP_eq, if_neg hab, habf, if_neg Bool.false_ne_true]
      show (runPreHooks p.preStore 0 s d).2.2 ++ _ ++ _ = _
      rw [runPreHooks_trace, runPostHooks_trace, runHTTPRespHooks_trace,
        List.append_assoc]
      simp only [List.range_eq_range']


/-- C6 (corrected, counterexample): a pipeline with one post-store hook and a
store whose CreateInteraction errors runs NO post-store hook (the trace is
empty and the run fails), contradicting the claim that all post-store hooks
run exactly once regardless. -/
theorem C6_counterexample :
    (ProcessDNS (σ := Unit)
      { store := some { createInteraction := fun s _ => (s, .error ()),
                        saveAttributes := fun s _ _ => (s, false) },
        preStore := [], postStore := [{ run := fun s _ _ => (s, false) }],
        httpResponse := [], dnsResponse := [] }
      ()
      { tokenValue := [], tokenId := 0, kind := [], occurredAt := 0,
        remoteIp := [], remotePort := 0, tls := false, summary := [],
        http := none, dns := none, attributes := [], drop := false }
      { rcode := 0, answers := [], handled := false }).trace = [] ∧
    (ProcessDNS (σ := Unit)
      { store := some { createInteraction := fun s _ => (s, .error ()),
                        saveAttributes := fun s _ _ => (s, false) },
        preStore := [], postStore := [{ run := fun s _ _ => (s, false) }],
        httpResponse := [], dnsResponse := [] }
      ()
      { tokenValue := [], tokenId := 0, kind := [], occurredAt := 0,
        remoteIp := [], remotePort := 0, tls := false, summary := [],
        http := none, dns := none, attributes := [], drop := false }
      { rcode := 0, answers := [], handled := false }).failed = true :=
  ⟨rfl, rfl⟩


/-! ## Claim C10: SaveAttributes is all-or-nothing -/

theorem saveAttrsTx_error_of_unencodable :
    ∀ (attrs : List (List Char × AttrVal)) (ints : List Interaction)
      (interactionId : Int) (rows : List AttrRow),
      (∃ kv ∈ attrs, marshalAttr kv.2 = none) →
      saveAttrsTx ints interactionId rows attrs = .error () := by
  intro attrs
  induction attrs with
  | nil =>
    intro ints interactionId rows h
    rcases h with ⟨kv, hkv, _⟩
    cases hkv
  | cons kv rest ih =>
    intro ints interactionId rows h
    rcases kv with ⟨key, val⟩
    simp only [saveAttrsTx]
    cases hm : marshalAttr val with
    | none => rfl
    | some enc =>
      simp only []
      rcases h with ⟨kv2, hkv2, hbad⟩
      rcases List.mem_cons.mp hkv2 with h1 | h2
      · subst h1
        simp only at hbad
        rw [hm] at hbad
        cases hbad
      · by_cases hfk : ints.any (fun i => i.id == interactionId) = true
        · rw [if_pos hfk]
          exact ih ints interactionId _ ⟨kv2, h2, hbad⟩
        · rw [if_neg hfk]

theorem saveAttrsTx_error_of_missing_fk (attrs : List (List Char × AttrVal))
    (ints : List Interaction) (interactionId : Int) (rows : List AttrRow)
    (hne : attrs ≠ [])
    (hfk : ints.any (fun i => i.id == interactionId) = false) :
    saveAttrsTx ints interactionId rows attrs = .error () := by
  cases attrs with
  | nil => exact absurd rfl hne
  | cons kv rest =>
    rcases kv with ⟨key, val⟩
    simp only [saveAttrsTx]
    cases hm : marshalAttr val with
    | none => rfl
    | some enc =>
      simp only []
      rw [if_neg (by rw [hfk]; simp)]

/-- C10 (confirmed): SaveAttributes is all-or-nothing — an empty map returns
nil before touching the database; a JSON-encoding failure for any value, or a
failing insert (the interaction row absent under foreign-key enforcement),
returns an error with the database unchanged (the transaction rolls back). -/
theorem C10_saveAttributes (db : DBState) (interactionId : Int)
    (attrs : List (List Char × AttrVal)) :
    (attrs = [] → SaveAttributes db interactionId attrs = (.ok (), db)) ∧
    (∀ res db2, SaveAttributes db interactionId attrs = (res, db2) →
      res = .error () → db2 = db) ∧
    ((∃ kv ∈ attrs, marshalAttr kv.2 = none) →
      (SaveAttributes db interactionId attrs).1 = .error ()) ∧
    (attrs ≠ [] → db.interactions.any (fun i => i.id == interactionId) = false →
      (SaveAttributes db interactionId attrs).1 = .error ()) := by
  refine ⟨?_, ?_, ?_, ?_⟩
  · intro he
    subst he
    rfl
  · intro res db2 hrun herr
    unfold SaveAttributes at hrun
    by_cases hz : attrs.length = 0
    · rw [if_pos hz] at hrun
      cases hrun
      cases herr
    · rw [if_neg hz] at hrun
      cases htx : saveAttrsTx db.interactions interactionId db.attrRows attrs with
      | ok rows =>
        rw [htx] at hrun
        cases hrun
        cases herr
      | error e =>
        rw [htx] at hrun
        cases hrun
        rfl
  · intro hbad
    have hne : attrs.length ≠ 0 := by
      rcases hbad with ⟨kv, hkv, _⟩
      intro hz
      rw [List.length_eq_zero] at hz
      subst hz
      cases hkv
    unfold SaveAttributes
    rw [if_neg hne]
    rw [saveAttrsTx_error_of_unencodable attrs db.interactions interactionId
      db.attrRows hbad]
  · intro hne hfk
    have hlen : attrs.length ≠ 0 := by
      intro hz
      rw [List.length_eq_zero] at hz
      exact hne hz
    unfold SaveAttributes
    rw [if_neg hlen]
    rw [saveAttrsTx_error_of_missing_fk attrs db.interactions interactionId
      db.attrRows hne hfk]

/-- Witness for C10 at a concrete database and attribute map. -/
theorem C10_saveAttributes_witness :
    (SaveAttributes ⟨[], [], [], [], [], 1⟩ 7 [] = (.ok (), ⟨[], [], [], [], [], 1⟩) ∧
      (SaveAttributes ⟨[], [], [], [], [], 1⟩ 7
        [(("k".toList : List Char), AttrVal.unencodable)]).1 = .error ()) := by
  constructor
  · exact (C10_saveAttributes ⟨[], [], [], [], [], 1⟩ 7 []).1 rfl
  · exact (C10_saveAttributes ⟨[], [], [], [], [], 1⟩ 7
      [(("k".toList : List Char), AttrVal.unencodable)]).2.2.1
      ⟨(("k".toList : List Char), AttrVal.unencodable), by simp, rfl⟩


/-! ## Claim C9: tokenId-0 drafts are silently skipped -/

theorem storageOnPreStore_unresolved (db : DBState) (d : InteractionDraft)
    (h0 : d.tokenId = 0) (hv : GetTokenByValue db d.tokenValue = none) :
    storageOnPreStore db d = (db, d, false) := by
  unfold storageOnPreStore
  rw [if_neg (by simp [h0])]
  by_cases he : d.tokenValue = []
  · rw [if_pos he]
  · rw [if_neg he, hv]

theorem defaultOnDNSResponse_state (ip : List Char) (s : DBState)
    (d : InteractionDraft) (p : DNSResponsePlan) :
    (defaultOnDNSResponse ip s d p).1 = s := by
  unfold defaultOnDNSResponse
  split
  · rfl
  · split
    · rfl
    · split
      · rfl
      · rfl

theorem runDNSRespHooks_default_state (ip : List Char) (s : DBState)
    (d : InteractionDraft) (p : DNSResponsePlan) :
    (runDNSRespHooks [defaultDNSRespHook ip] 0 s d p).1 = s := by
  simp only [runDNSRespHooks]
  split
  · exact defaultOnDNSResponse_state ip s d p
  · exact defaultOnDNSResponse_state ip s d p

theorem defaultOnDNSResponse_rcode (ip : List Char) (s : DBState)
    (d : InteractionDraft) (p : DNSResponsePlan) :
    (defaultOnDNSResponse ip s d p).2.1.rcode = p.rcode := by
  unfold defaultOnDNSResponse
  split
  · rfl
  · split
    · rfl
    · split
      · rfl
      · rfl

theorem runDNSRespHooks_default_rcode (ip : List Char) (s : DBState)
    (d : InteractionDraft) (p : DNSResponsePlan) :
    (runDNSRespHooks [defaultDNSRespHook ip] 0 s d p).2.1.rcode = p.rcode := by
  simp only [runDNSRespHooks]
  split
  · exact defaultOnDNSResponse_rcode ip s d p
  · exact defaultOnDNSResponse_rcode ip s d p

theorem serverPipeline_pre_unresolved (ip : List Char) (db : DBState)
    (d : InteractionDraft) (h0 : d.tokenId = 0)
    (hv : GetTokenByValue db d.tokenValue = none) :
    runPreHooks (serverPipeline ip).preStore 0 db d =
      (db, d, [(0, Phase.preStoreP)]) := by
  show runPreHooks [storagePreStoreHook] 0 db d = _
  simp only [runPreHooks]
  rw [show storagePreStoreHook.run db d = (db, d, false) from
    storageOnPreStore_unresolved db d h0 hv]

theorem serverPipeline_store_unresolved (ip : List Char) (db : DBState)
    (d : InteractionDraft) (h0 : d.tokenId = 0) (hdrop : d.drop = false)
    (hattrs : d.attributes = []) :
    storeStep (serverPipeline ip).store db d = (db, 0, false) := by
  show storeStep (some storageStore) db d = _
  unfold storeStep
  rw [if_pos hdrop]
  simp only []
  rw [show storageStore.createInteraction db d = (db, Except.ok 0) from by
    show storageCreateInteraction db d = _
    unfold storageCreateInteraction
    rw [if_pos h0]]
  simp only []
  rw [if_neg (by rw [hattrs]; simp)]

/-- C9 (confirmed): the storage plugin's CreateInteraction returns id 0 and no
error for a draft whose token id is 0, writing nothing; a full pipeline run
over the server's plugin set for an unknown token value therefore reports
success, leaves InteractionID at 0 — indistinguishable at the return value
from a stored interaction — and leaves the database untouched. -/
theorem C9_zero_token (db : DBState) (d : InteractionDraft) (ip : List Char)
    (resp : DNSResponsePlan) (h0 : d.tokenId = 0)
    (hv : GetTokenByValue db d.tokenValue = none) (hdrop : d.drop = false)
    (hattrs : d.attributes = []) :
    storageCreateInteraction db d = (db, .ok 0) ∧
    (ProcessDNS (serverPipeline ip) db d resp).failed = false ∧
    (ProcessDNS (serverPipeline ip) db d resp).interactionId = 0 ∧
    (ProcessDNS (serverPipeline ip) db d resp).state = db := by
  have hcreate : storageCreateInteraction db d = (db, .ok 0) := by
    unfold storageCreateInteraction
    rw [if_pos h0]
  have hpre := serverPipeline_pre_unresolved ip db d h0 hv
  have hstep := serverPipeline_store_unresolved ip db d h0 hdrop hattrs
  refine ⟨hcreate, ?_, ?_, ?_⟩
  · unfold ProcessDNS
    rw [hpre]
    simp only []
    rw [hstep, if_neg (show ¬ (((db, (0 : Int), false)).2.2 = true) from by simp)]
  · unfold ProcessDNS
    rw [hpre]
    simp only []
    rw [hstep, if_neg (show ¬ (((db, (0 : Int), false)).2.2 = true) from by simp)]
  · unfold ProcessDNS
    rw [hpre]
    simp only []
    rw [hstep, if_neg (show ¬ (((db, (0 : Int), false)).2.2 = true) from by simp)]
    show (runDNSRespHooks (serverPipeline ip).dnsResponse 0
      (runPostHooks (serverPipeline ip).postStore 0 db d 0).1 d resp).1 = db
    show (runDNSRespHooks [defaultDNSRespHook ip] 0
      (runPostHooks ([] : List (PostStoreHook DBState)) 0 db d 0).1 d resp).1 = db
    exact runDNSRespHooks_default_state ip db d resp

/-- Witness for C9 at a concrete empty database and DNS draft. -/
theorem C9_zero_token_witness :
    storageCreateInteraction ⟨[], [], [], [], [], 1⟩
      { tokenValue := "unknown".toList, tokenId := 0, kind := KindDNS,
        occurredAt := 0, remoteIp := "192.0.2.1".toList, remotePort := 5353,
        tls := false, summary := [], http := none, dns := none,
        attributes := [], drop := false } = (⟨[], [], [], [], [], 1⟩, .ok 0) ∧
    (ProcessDNS (serverPipeline ("127.0.0.1".toList)) ⟨[], [], [], [], [], 1⟩
      { tokenValue := "unknown".toList, tokenId := 0, kind := KindDNS,
        occurredAt := 0, remoteIp := "192.0.2.1".toList, remotePort := 5353,
        tls := false, summary := [], http := none, dns := none,
        attributes := [], drop := false }
      { rcode := 0, answers := [], handled := false }).failed = false ∧
    (ProcessDNS (serverPipeline ("127.0.0.1".toList)) ⟨[], [], [], [], [], 1⟩
      { tokenValue := "unknown".toList, tokenId := 0, kind := KindDNS,
        occurredAt := 0, remoteIp := "192.0.2.1".toList, remotePort := 5353,
        tls := false, summary := [], http := none, dns := none,
        attributes := [], drop := false }
      { rcode := 0, answers := [], handled := false }).interactionId = 0 ∧
    (ProcessDNS (serverPipeline ("127.0.0.1".toList)) ⟨[], [], [], [], [], 1⟩
      { tokenValue := "unknown".toList, tokenId := 0, kind := KindDNS,
        occurredAt := 0, remoteIp := "192.0.2.1".toList, remotePort := 5353,
        tls := false, summary := [], http := none, dns := none,
        attributes := [], drop := false }
      { rcode := 0, answers := [], handled := false }).state =
      ⟨[], [], [], [], [], 1⟩ :=
  C9_zero_token ⟨[], [], [], [], [], 1⟩
    { tokenValue := "unknown".toList, tokenId := 0, kind := KindDNS,
      occurredAt := 0, remoteIp := "192.0.2.1".toList, remotePort := 5353,
      tls := false, summary := [], http := none, dns := none,
      attributes := [], drop := false }
    ("127.0.0.1".toList) { rcode := 0, answers := [], handled := false }
    rfl rfl rfl rfl


/-! ## Claim C1: ownership-scoped 404 -/

/-- C1 (confirmed): for any requester key B and any token value that either
does not exist, has no owner, or is owned by a key other than B, both the
interactions fetch and the delete return exactly 404 with message
"token not found" — the same response as for a nonexistent token — and the
delete leaves the database unchanged (the token is neither returned nor
deleted). -/
theorem C1_ownership (db : DBState) (keyB : Int) (tokenValue : List Char)
    (hv : tokenValue ≠ [])
    (hown : ∀ t, GetTokenByValue db tokenValue = some t →
      t.apiKeyId ≠ some keyB) :
    handleGetInteractions db keyB tokenValue =
      .err 404 ("token not found".toList) ∧
    handleDeleteToken db keyB tokenValue =
      (.err 404 ("token not found".toList), db) := by
  constructor
  · unfold handleGetInteractions
    rw [if_neg hv]
    cases hl : GetTokenByValue db tokenValue with
    | none => rfl
    | some tok =>
      simp only []
      rw [if_neg (hown tok hl)]
  · unfold handleDeleteToken
    rw [if_neg hv]
    cases hl : GetTokenByValue db tokenValue with
    | none => rfl
    | some tok =>
      simp only []
      rw [if_neg (hown tok hl)]

/-- Witness for C1: a database holding one token owned by key 1, queried by
key 2, and a nonexistent token value; both get the identical 404. -/
theorem C1_ownership_witness :
    (handleGetInteractions
        ⟨[⟨5, "abcdef123456".toList, some 1, 0, none⟩], [], [], [], [], 6⟩ 2
        ("abcdef123456".toList) = .err 404 ("token not found".toList) ∧
      handleDeleteToken
        ⟨[⟨5, "abcdef123456".toList, some 1, 0, none⟩], [], [], [], [], 6⟩ 2
        ("abcdef123456".toList) =
          (.err 404 ("token not found".toList),
            ⟨[⟨5, "abcdef123456".toList, some 1, 0, none⟩], [], [], [], [], 6⟩)) ∧
    (handleGetInteractions
        ⟨[⟨5, "abcdef123456".toList, some 1, 0, none⟩], [], [], [], [], 6⟩ 2
        ("missing00000".toList) = .err 404 ("token not found".toList)) := by
  constructor
  · exact C1_ownership
      ⟨[⟨5, "abcdef123456".toList, some 1, 0, none⟩], [], [], [], [], 6⟩ 2
      ("abcdef123456".toList) (by decide)
      (by
        intro t ht
        have : t = ⟨5, "abcdef123456".toList, some 1, 0, none⟩ := by
          rw [show GetTokenByValue
            ⟨[⟨5, "abcdef123456".toList, some 1, 0, none⟩], [], [], [], [], 6⟩
            ("abcdef123456".toList) =
            some ⟨5, "abcdef123456".toList, some 1, 0, none⟩ from by decide] at ht
          exact (Option.some.inj ht).symm
        rw [this]
        decide)
  · exact (C1_ownership
      ⟨[⟨5, "abcdef123456".toList, some 1, 0, none⟩], [], [], [], [], 6⟩ 2
      ("missing00000".toList) (by decide)
      (by
        intro t ht
        rw [show GetTokenByValue
          ⟨[⟨5, "abcdef123456".toList, some 1, 0, none⟩], [], [], [], [], 6⟩
          ("missing00000".toList) = none from by decide] at ht
        cases ht)).1


/-! ## Claim C2: DNS handler, unknown vs known tokens -/

theorem serverProcessDNS_unresolved (ip : List Char) (db : DBState)
    (d : InteractionDraft) (resp : DNSResponsePlan) (h0 : d.tokenId = 0)
    (hv : GetTokenByValue db d.tokenValue = none) (hdrop : d.drop = false)
    (hattrs : d.attributes = []) :
    (ProcessDNS (serverPipeline ip) db d resp).state = db ∧
    (ProcessDNS (serverPipeline ip) db d resp).resp.rcode = resp.rcode := by
  have hpre := serverPipeline_pre_unresolved ip db d h0 hv
  have hstep := serverPipeline_store_unresolved ip db d h0 hdrop hattrs
  constructor
  · unfold ProcessDNS
    rw [hpre]
    simp only []
    rw [hstep, if_neg (show ¬ (((db, (0 : Int), false)).2.2 = true) from by simp)]
    show (runDNSRespHooks [defaultDNSRespHook ip] 0
      (runPostHooks ([] : List (PostStoreHook DBState)) 0 db d 0).1 d resp).1 = db
    exact runDNSRespHooks_default_state ip db d resp
  · unfold ProcessDNS
    rw [hpre]
    simp only []
    rw [hstep, if_neg (show ¬ (((db, (0 : Int), false)).2.2 = true) from by simp)]
    show (runDNSRespHooks [defaultDNSRespHook ip] 0
      (runPostHooks ([] : List (PostStoreHook DBState)) 0 db d 0).1
      d resp).2.1.rcode = resp.rcode
    exact runDNSRespHooks_default_rcode ip db d resp

theorem storageCreateInteraction_dns (db : DBState) (d : InteractionDraft)
    (hid : ¬ d.tokenId = 0) (hkind : d.kind = KindDNS) :
    ((storageCreateInteraction db d).1).interactions.length =
      db.interactions.length + 1 ∧
    (storageCreateInteraction db d).2 = .ok db.nextId := by
  unfold storageCreateInteraction
  rw [if_neg hid, hkind]
  rw [if_neg (show ¬ (KindDNS = KindHTTP) from by decide), if_pos rfl]
  cases hdns : d.dns with
  | none =>
    simp only [CreateInteraction]
    constructor
    · simp [List.length_append]
    · trivial
  | some dd =>
    simp only [CreateInteraction, CreateDNSInteraction]
    constructor
    · simp [List.length_append]
    · trivial

theorem storageOnPreStore_resolved (db : DBState) (d : InteractionDraft)
    (t : Token) (h0 : d.tokenId = 0) (hne : d.tokenValue ≠ [])
    (hv : GetTokenByValue db d.tokenValue = some t) :
    storageOnPreStore db d = (db, { d with tokenId := t.id }, false) := by
  unfold storageOnPreStore
  rw [if_neg (by simp [h0]), if_neg hne, hv]

theorem serverProcessDNS_resolved (ip : List Char) (db : DBState)
    (d : InteractionDraft) (resp : DNSResponsePlan) (t : Token)
    (h0 : d.tokenId = 0) (hne : d.tokenValue ≠ [])
    (hv : GetTokenByValue db d.tokenValue = some t) (hid : ¬ t.id = 0)
    (hdrop : d.drop = false) (hattrs : d.attributes = [])
    (hkind : d.kind = KindDNS) :
    ((ProcessDNS (serverPipeline ip) db d resp).state).interactions.length =
      db.interactions.length + 1 ∧
    (ProcessDNS (serverPipeline ip) db d resp).resp.rcode = resp.rcode ∧
    (ProcessDNS (serverPipeline ip) db d resp).failed = false := by
  have hpre : runPreHooks (serverPipeline ip).preStore 0 db d =
      (db, { d with tokenId := t.id }, [(0, Phase.preStoreP)]) := by
    show runPreHooks [storagePreStoreHook] 0 db d = _
    simp only [runPreHooks]
    rw [show storagePreStoreHook.run db d = (db, { d with tokenId := t.id }, false)
      from storageOnPreStore_resolved db d t h0 hne hv]
  have hcr := storageCreateInteraction_dns db { d with tokenId := t.id }
    (by simpa using hid) (by simpa using hkind)
  have hstep : storeStep (serverPipeline ip).store db { d with tokenId := t.id } =
      ((storageCreateInteraction db { d with tokenId := t.id }).1, db.nextId,
        false) := by
    show storeStep (some storageStore) db { d with tokenId := t.id } = _
    unfold storeStep
    rw [if_pos (by simpa using hdrop)]
    simp only []
    rcases hc : storageStore.createInteraction db { d with tokenId := t.id }
      with ⟨s2, e⟩
    have hc2 : storageCreateInteraction db { d with tokenId := t.id } = (s2, e) :=
      hc
    rw [hc2] at hcr
    cases e with
    | error u => cases hcr.2
    | ok idv =>
      simp only []
      rw [if_neg (by simp [hattrs])]
      have : idv = db.nextId := by
        have := hcr.2
        exact Except.ok.inj this
      rw [this, show s2 = (storageCreateInteraction db { d with tokenId := t.id }).1
        from by rw [hc2]]
  refine ⟨?_, ?_, ?_⟩
  · unfold ProcessDNS
    rw [hpre]
    simp only []
    rw [hstep, if_neg (show ¬ ((((storageCreateInteraction db
      { d with tokenId := t.id }).1, db.nextId, false)).2.2 = true) from by simp)]
    show (runDNSRespHooks [defaultDNSRespHook ip] 0
      (runPostHooks ([] : List (PostStoreHook DBState)) 0
        (storageCreateInteraction db { d with tokenId := t.id }).1
        { d with tokenId := t.id } db.nextId).1
      { d with tokenId := t.id } resp).1.interactions.length =
      db.interactions.length + 1
    rw [runDNSRespHooks_default_state]
    exact hcr.1
  · unfold ProcessDNS
    rw [hpre]
    simp only []
    rw [hstep, if_neg (show ¬ ((((storageCreateInteraction db
      { d with tokenId := t.id }).1, db.nextId, false)).2.2 = true) from by simp)]
    show (runDNSRespHooks [defaultDNSRespHook ip] 0
      (runPostHooks ([] : List (PostStoreHook DBState)) 0
        (storageCreateInteraction db { d with tokenId := t.id }).1
        { d with tokenId := t.id } db.nextId).1
      { d with tokenId := t.id } resp).2.1.rcode = resp.rcode
    exact runDNSRespHooks_default_rcode ip _ _ resp
  · unfold ProcessDNS
    rw [hpre]
    simp only []
    rw [hstep, if_neg (show ¬ ((((storageCreateInteraction db
      { d with tokenId := t.id }).1, db.nextId, false)).2.2 = true) from by simp)]


/-- C2 (corrected, counterexample): an A query for
unknowntoken.oastrix.local against an empty token table is answered with
rcode NOERROR (the default-response plugin's answer), not the claimed
NXDOMAIN; no interaction row is persisted. -/
theorem C2_counterexample :
    ¬ ((handleDNSQuestion
        ⟨"oastrix.local".toList, "127.0.0.1".toList, fun _ => []⟩
        (serverPipeline ("127.0.0.1".toList)) ⟨[], [], [], [], [], 1⟩
        ⟨"unknowntoken.oastrix.local.".toList, 1, 1, false, 0, 0⟩
        ("udp".toList) ("192.0.2.1".toList) 12345 0).rcode = RcodeNameError) ∧
    (handleDNSQuestion
        ⟨"oastrix.local".toList, "127.0.0.1".toList, fun _ => []⟩
        (serverPipeline ("127.0.0.1".toList)) ⟨[], [], [], [], [], 1⟩
        ⟨"unknowntoken.oastrix.local.".toList, 1, 1, false, 0, 0⟩
        ("udp".toList) ("192.0.2.1".toList) 12345 0).rcode = RcodeSuccess ∧
    (handleDNSQuestion
        ⟨"oastrix.local".toList, "127.0.0.1".toList, fun _ => []⟩
        (serverPipeline ("127.0.0.1".toList)) ⟨[], [], [], [], [], 1⟩
        ⟨"unknowntoken.oastrix.local.".toList, 1, 1, false, 0, 0⟩
        ("udp".toList) ("192.0.2.1".toList) 12345 0).db =
      ⟨[], [], [], [], [], 1⟩ := by
  refine ⟨by decide, by decide, by decide⟩

/-- C2 (amended): for a question that none of the SOA/NS/ns1/apex-A/TXT
shortcuts handled: if no token label can be extracted, the handler replies
NXDOMAIN and persists nothing; if a label is extracted but unknown, the draft
still runs through the pipeline, which persists nothing (token id 0) and
replies with the default plan's NOERROR; if the label is a known token, one
interaction row is persisted and the reply is the plan's NOERROR. -/
theorem C2_dns_token (cfg : DNSConfig) (ip : List Char) (db : DBState)
    (q : DNSQuestion) (protocol remoteIp : List Char)
    (remotePort occurredAt : Int) (qn : List Char)
    (hqn : goToLower (goTrimSuffix q.qnameRaw ['.']) = qn)
    (h1 : ¬ (q.qtype = TypeSOA ∧
      (qn = cfg.domain ∨ goHasSuffix qn ('.' :: cfg.domain) = true)))
    (h2 : ¬ (q.qtype = TypeNS ∧ qn = cfg.domain))
    (h3 : ¬ (qn = "ns1.".toList ++ cfg.domain))
    (h4 : ¬ (qn = cfg.domain ∧ q.qtype = TypeA ∧ cfg.publicIP ≠ []))
    (h5 : ¬ (q.qtype = TypeTXT ∧ cfg.txtGet (NormalizeName q.qnameRaw) ≠ [])) :
    (extractTokenFromQName qn cfg.domain = [] →
      handleDNSQuestion cfg (serverPipeline ip) db q protocol remoteIp
        remotePort occurredAt = ⟨RcodeNameError, [], db⟩) ∧
    (extractTokenFromQName qn cfg.domain ≠ [] →
      GetTokenByValue db (extractTokenFromQName qn cfg.domain) = none →
      (handleDNSQuestion cfg (serverPipeline ip) db q protocol remoteIp
          remotePort occurredAt).db = db ∧
      (handleDNSQuestion cfg (serverPipeline ip) db q protocol remoteIp
          remotePort occurredAt).rcode = RcodeSuccess) ∧
    (∀ t : Token, extractTokenFromQName qn cfg.domain ≠ [] →
      GetTokenByValue db (extractTokenFromQName qn cfg.domain) = some t →
      ¬ t.id = 0 →
      ((handleDNSQuestion cfg (serverPipeline ip) db q protocol remoteIp
          remotePort occurredAt).db).interactions.length =
        db.interactions.length + 1 ∧
      (handleDNSQuestion cfg (serverPipeline ip) db q protocol remoteIp
          remotePort occurredAt).rcode = RcodeSuccess) := by
  have hunfold : handleDNSQuestion cfg (serverPipeline ip) db q protocol
      remoteIp remotePort occurredAt =
      (if extractTokenFromQName qn cfg.domain = [] then
        ⟨RcodeNameError, [], db⟩
      else
        let draft : InteractionDraft :=
          { tokenValue := extractTokenFromQName qn cfg.domain, tokenId := 0,
            kind := KindDNS, occurredAt := occurredAt, remoteIp := remoteIp,
            remotePort := remotePort, tls := false,
            summary := dnsTypeToString q.qtype ++ ' ' :: (qn ++ ' ' :: protocol),
            http := none,
            dns := some { qname := qn, qtype := q.qtype, qclass := q.qclass,
                          rd := if q.rd then 1 else 0, opcode := q.opcode,
                          dnsId := q.dnsId, protocol := protocol },
            attributes := [], drop := false }
        let resp : DNSResponsePlan :=
          { rcode := RcodeSuccess, answers := [], handled := false }
        let r := ProcessDNS (serverPipeline ip) db draft resp
        ⟨r.resp.rcode, r.resp.answers, r.state⟩) := by
    unfold handleDNSQuestion
    simp only []
    rw [hqn]
    rw [if_neg h1, if_neg h2, if_neg h3, if_neg h4, if_neg h5]
  rw [hunfold]
  refine ⟨?_, ?_, ?_⟩
  · intro htok
    rw [if_pos htok]
  · intro htok hnone
    rw [if_neg htok]
    simp only []
    have := serverProcessDNS_unresolved ip db
      { tokenValue := extractTokenFromQName qn cfg.domain, tokenId := 0,
        kind := KindDNS, occurredAt := occurredAt, remoteIp := remoteIp,
        remotePort := remotePort, tls := false,
        summary := dnsTypeToString q.qtype ++ ' ' :: (qn ++ ' ' :: protocol),
        http := none,
        dns := some { qname := qn, qtype := q.qtype, qclass := q.qclass,
                      rd := if q.rd then 1 else 0, opcode := q.opcode,
                      dnsId := q.dnsId, protocol := protocol },
        attributes := [], drop := false }
      { rcode := RcodeSuccess, answers := [], handled := false }
      rfl hnone rfl rfl
    exact ⟨this.1, this.2⟩
  · intro t htok hsome hid
    rw [if_neg htok]
    simp only []
    have := serverProcessDNS_resolved ip db
      { tokenValue := extractTokenFromQName qn cfg.domain, tokenId := 0,
        kind := KindDNS, occurredAt := occurredAt, remoteIp := remoteIp,
        remotePort := remotePort, tls := false,
        summary := dnsTypeToString q.qtype ++ ' ' :: (qn ++ ' ' :: protocol),
        http := none,
        dns := some { qname := qn, qtype := q.qtype, qclass := q.qclass,
                      rd := if q.rd then 1 else 0, opcode := q.opcode,
                      dnsId := q.dnsId, protocol := protocol },
        attributes := [], drop := false }
      { rcode := RcodeSuccess, answers := [], handled := false }
      t rfl htok hsome hid rfl rfl rfl
    exact ⟨this.1, this.2.1⟩


/-- Witness for C2: a known token tok123 owned in the table; an A query for
tok123.oastrix.local persists exactly one interaction and answers NOERROR. -/
theorem C2_dns_token_witness :
    ((handleDNSQuestion
        ⟨"oastrix.local".toList, "127.0.0.1".toList, fun _ => []⟩
        (serverPipeline ("127.0.0.1".toList))
        ⟨[⟨5, "tok123".toList, some 1, 0, none⟩], [], [], [], [], 1⟩
        ⟨"tok123.oastrix.local.".toList, 1, 1, false, 0, 0⟩
        ("udp".toList) ("192.0.2.1".toList) 12345 0).db).interactions.length =
      0 + 1 ∧
    (handleDNSQuestion
        ⟨"oastrix.local".toList, "127.0.0.1".toList, fun _ => []⟩
        (serverPipeline ("127.0.0.1".toList))
        ⟨[⟨5, "tok123".toList, some 1, 0, none⟩], [], [], [], [], 1⟩
        ⟨"tok123.oastrix.local.".toList, 1, 1, false, 0, 0⟩
        ("udp".toList) ("192.0.2.1".toList) 12345 0).rcode = RcodeSuccess :=
  (C2_dns_token
    ⟨"oastrix.local".toList, "127.0.0.1".toList, fun _ => []⟩
    ("127.0.0.1".toList)
    ⟨[⟨5, "tok123".toList, some 1, 0, none⟩], [], [], [], [], 1⟩
    ⟨"tok123.oastrix.local.".toList, 1, 1, false, 0, 0⟩
    ("udp".toList) ("192.0.2.1".toList) 12345 0
    ("tok123.oastrix.local".toList) (by decide) (by decide) (by decide)
    (by decide) (by decide) (by decide)).2.2
    ⟨5, "tok123".toList, some 1, 0, none⟩ (by decide) (by decide) (by decide)

end Oastrix
